import Mathlib

/-!
Verification of the memory-management subsystem of the itamar567/os kernel
(src/memory/area_frame_allocator.rs, src/memory/stack_allocator.rs,
src/memory/mod.rs) against its natural-language specification.

Physical frames and virtual pages are modelled by their index (address divided
by the 4096-byte page size); page tables are modelled at leaf granularity as an
association list of installed entries, with the map/unmap primitives of the
x86_64 crate (map_to fails on an already-mapped page, unmap fails on an
unmapped page, and a failed unwrap is a kernel panic).  The recursive-slot and
CR3 plumbing of remap_kernel, and the frames consumed for intermediate table
levels, live below leaf granularity and are not represented.
-/

namespace OsMemory

/-- Size4KiB::SIZE: the frame/page size, 4096 bytes. -/
def PAGE_SIZE : Nat := 4096

/-- PageTableFlags restricted to the three flag bits this kernel ever sets on a
leaf entry: PRESENT, WRITABLE and NO_EXECUTE. -/
structure PageTableFlags where
  present : Bool
  writable : Bool
  no_execute : Bool
deriving DecidableEq

/-- PageTableFlags::WRITABLE | PageTableFlags::PRESENT, the flag combination
used for the display buffer, the heap window and stack pages. -/
def writablePresent : PageTableFlags :=
  { present := true, writable := true, no_execute := false }

/-- PageTableFlags::PRESENT alone, the flag combination used for the
boot-metadata (multiboot information) frames in remap_kernel. -/
def presentOnly : PageTableFlags :=
  { present := true, writable := false, no_execute := false }

/-- A leaf entry installed in a page table: virtual page index, physical frame
index, and the flags passed to map_to. -/
structure MappedEntry where
  page : Nat
  frame : Nat
  flags : PageTableFlags
deriving DecidableEq

/-- A page table at leaf granularity: the list of installed leaf entries in
installation order. -/
abbrev PTable := List MappedEntry

/-- Translation lookup: the first installed entry for a page, if any. -/
def lookupPage : PTable → Nat → Option MappedEntry
  | [], _ => none
  | e :: t, p => if e.page = p then some e else lookupPage t p

/-- Mapper::map_to: installs a leaf entry; fails (unwrap panics in the source)
if the page is already mapped. -/
def map_to (t : PTable) (page frame : Nat) (flags : PageTableFlags) :
    Option PTable :=
  match lookupPage t page with
  | some _ => none
  | none => some (t ++ [⟨page, frame, flags⟩])

/-- Mapper::identity_map: maps the page whose index equals the frame index. -/
def identity_map (t : PTable) (frame : Nat) (flags : PageTableFlags) :
    Option PTable :=
  map_to t frame frame flags

/-- Mapper::unmap: clears the leaf entry for a page; fails (unwrap panics in
the source) if the page is not mapped. -/
def unmap (t : PTable) (page : Nat) : Option PTable :=
  match lookupPage t page with
  | some _ => some (t.filter (fun e => e.page != page))
  | none => none

/-- PhysFrame::range_inclusive / Page::range_inclusive as a list of indices:
a..=b, empty when b < a. -/
def rangeList (a b : Nat) : List Nat := List.range' a (b + 1 - a)

/-- One kernel ELF section as reported by the boot loader: the ALLOCATED,
WRITABLE and EXECUTABLE flags plus its physical address range. -/
structure ElfSection where
  allocated : Bool
  writable : Bool
  executable : Bool
  start_address : Nat
  end_address : Nat
deriving DecidableEq

/-- Flag derivation of remap_kernel (mod.rs lines 161-172): PRESENT if the
section has the ALLOCATED flag, WRITABLE if it has the WRITABLE flag,
NO_EXECUTE unless it has the EXECUTABLE flag. -/
def sectionFlags (s : ElfSection) : PageTableFlags :=
  { present := s.allocated, writable := s.writable, no_execute := !s.executable }

/-- Identity-map every frame of a list with fixed flags, failing as soon as one
identity_map fails (the source unwraps each result). -/
def identFold (t : PTable) (l : List Nat) (fl : PageTableFlags) : Option PTable :=
  match l with
  | [] => some t
  | f :: rest =>
    match identity_map t f fl with
    | none => none
    | some t1 => identFold t1 rest fl

/-- Mapping of one kernel section in remap_kernel (mod.rs lines 155-185): a
non-allocated section is skipped; from_start_address panics on a misaligned
section start; every frame from the section start frame to the frame containing
end_address - 1 is identity-mapped with the derived flags. -/
def mapSection (t : PTable) (s : ElfSection) : Option PTable :=
  if s.allocated = false then some t
  else if s.start_address % PAGE_SIZE ≠ 0 then none
  else
    identFold t
      (rangeList (s.start_address / PAGE_SIZE) ((s.end_address - 1) / PAGE_SIZE))
      (sectionFlags s)

/-- The section loop of remap_kernel over the ELF sections tag. -/
def mapSections : PTable → List ElfSection → Option PTable
  | t, [] => some t
  | t, s :: rest =>
    match mapSection t s with
    | none => none
    | some t1 => mapSections t1 rest

/-- Frame containing the VGA text buffer at physical address 0xb8000. -/
def VGA_FRAME : Nat := 0xb8000 / PAGE_SIZE

/-- Boot-loader inputs consumed by remap_kernel: the ELF sections, the byte
range of the multiboot information structure, and the physical address of the
previously active top-level table (read from its recursive slot). -/
structure RemapInput where
  sections : List ElfSection
  multiboot_start : Nat
  multiboot_end : Nat
  old_p4_addr : Nat
deriving DecidableEq

/-- Frames of the boot-metadata range, from the frame containing
multiboot_start to the frame containing multiboot_end - 1 (mod.rs 199-202). -/
def mbFrames (inp : RemapInput) : List Nat :=
  rangeList (inp.multiboot_start / PAGE_SIZE) ((inp.multiboot_end - 1) / PAGE_SIZE)

/-- Leaf entries installed by remap_kernel before the table switch (mod.rs
lines 154-209): each loaded section identity-mapped with derived flags, then
the VGA buffer frame with WRITABLE | PRESENT, then every boot-metadata frame
with PRESENT. -/
def buildTable (inp : RemapInput) : Option PTable :=
  (mapSections [] inp.sections).bind fun t1 =>
    (identity_map t1 VGA_FRAME writablePresent).bind fun t2 =>
      identFold t2 (mbFrames inp) presentOnly

/-- Full remap_kernel at leaf granularity: build the new table, then turn the
old top-level table frame into a guard page by unmapping the virtual page at
its address (mod.rs lines 211-221). -/
def remap_kernel (inp : RemapInput) : Option PTable :=
  (buildTable inp).bind fun t => unmap t (inp.old_p4_addr / PAGE_SIZE)

/-- HEAP_START from mod.rs line 20 (the octal literal 0o_000_001_000_000_0000). -/
def HEAP_START : Nat := 0o10000000000

/-- HEAP_SIZE from mod.rs line 21: 100 KiB. -/
def HEAP_SIZE : Nat := 100 * 1024

/-- Pages of the heap window mapped by init (mod.rs lines 87-91). -/
def heapPages : List Nat :=
  rangeList (HEAP_START / PAGE_SIZE) ((HEAP_START + HEAP_SIZE - 1) / PAGE_SIZE)

/-- Shared shape of the heap-mapping loop (mod.rs 91-103) and the stack-mapping
loop (stack_allocator.rs 68-82): map each page of a list to the next frame
handed out by the frame allocator, with WRITABLE | PRESENT.  An exhausted
allocator (expect) or a map_to conflict (unwrap) is a panic; the error value
carries the table as it stands at the panic, earlier pages already mapped. -/
def mapWritablePages : PTable → List Nat → List Nat →
    Except PTable (PTable × List Nat)
  | t, frames, [] => Except.ok (t, frames)
  | t, frames, p :: ps =>
    match frames with
    | [] => Except.error t
    | f :: fr =>
      match map_to t p f writablePresent with
      | none => Except.error t
      | some t1 => mapWritablePages t1 fr ps

/-- PageRangeInclusive of the x86_64 crate; the Rust field end (inclusive) is
named last here because end is a Lean keyword. -/
structure PageRangeInclusive where
  start : Nat
  last : Nat
deriving DecidableEq

/-- Iterator::next on PageRangeInclusive: yields start and advances it while
start ≤ end. -/
def rangeNext (r : PageRangeInclusive) : Option Nat × PageRangeInclusive :=
  if r.start ≤ r.last then (some r.start, ⟨r.start + 1, r.last⟩) else (none, r)

/-- Iterator::nth n: skip n elements and return the next, stopping early when
the iterator is exhausted. -/
def rangeNth : PageRangeInclusive → Nat → Option Nat × PageRangeInclusive
  | r, 0 => rangeNext r
  | r, n + 1 =>
    match rangeNext r with
    | (none, r1) => (none, r1)
    | (some _, r1) => rangeNth r1 n

/-- Stack handle returned by the stack allocator: top and bottom virtual
addresses (in bytes). -/
structure Stack where
  top : Nat
  bottom : Nat
deriving DecidableEq

/-- StackAllocator state: the reserved range of unused virtual pages. -/
structure StackAllocator where
  range : PageRangeInclusive
deriving DecidableEq

/-- Outcome of allocate_stack: a normal return (with the updated allocator,
table and frame list), or a panic (expect/unwrap/assert failure) carrying the
mutated allocator and table at the moment of the panic. -/
inductive StackResult where
  | ok (stack : Option Stack) (alloc : StackAllocator) (table : PTable)
      (frames : List Nat)
  | panicked (alloc : StackAllocator) (table : PTable)
deriving DecidableEq

/-- The match statement of allocate_stack on (guard_page, stack_start,
stack_end) with the success-arm body (stack_allocator.rs lines 62-90): on
success the advanced range r3 is committed first, then each stack page is
mapped WRITABLE | PRESENT to a freshly allocated frame (panicking mid-loop on
exhaustion or conflict), and finally Stack::new asserts top > bottom; if any
of the three pages is missing, None is returned with the allocator
untouched. -/
def stackMatch (alloc : StackAllocator) (table : PTable) (frames : List Nat)
    (guard_page stack_start stack_end : Option Nat)
    (r3 : PageRangeInclusive) : StackResult :=
  match guard_page, stack_start, stack_end with
  | some _, some s, some e =>
    match mapWritablePages table frames (rangeList s e) with
    | Except.error tp => StackResult.panicked ⟨r3⟩ tp
    | Except.ok tf =>
      if s * PAGE_SIZE < e * PAGE_SIZE + PAGE_SIZE then
        StackResult.ok (some ⟨e * PAGE_SIZE + PAGE_SIZE, s * PAGE_SIZE⟩)
          ⟨r3⟩ tf.1 tf.2
      else StackResult.panicked ⟨r3⟩ tf.1
  | _, _, _ => StackResult.ok none alloc table frames

/-- StackAllocator::allocate_stack (stack_allocator.rs lines 40-91).  A zero
request returns None.  The cloned range yields a guard page, the stack start
and (for requests above one page, via nth) the stack end, and the match over
the three drives the rest. -/
def allocate_stack (alloc : StackAllocator) (table : PTable)
    (frames : List Nat) (size_in_pages : Nat) : StackResult :=
  if size_in_pages = 0 then StackResult.ok none alloc table frames
  else
    let g := rangeNext alloc.range
    let st := rangeNext g.2
    let en := if size_in_pages = 1 then st else rangeNth st.2 (size_in_pages - 2)
    stackMatch alloc table frames g.1 st.1 en.1 en.2

/-- A boot-reported usable memory area [start_address, end_address). -/
structure MemoryArea where
  start_address : Nat
  end_address : Nat
deriving DecidableEq

/-- Frame containing end_address - 1: the last frame of an area
(area_frame_allocator.rs lines 46 and 68-69). -/
def areaLastFrame (a : MemoryArea) : Nat := (a.end_address - 1) / PAGE_SIZE

/-- AreaFrameAllocator state (area_frame_allocator.rs lines 7-15), frames by
index. -/
structure AreaFrameAllocator where
  next_free_frame : Nat
  current_area : Option MemoryArea
  areas : List MemoryArea
  kernel_start : Nat
  kernel_end : Nat
  multiboot_start : Nat
  multiboot_end : Nat
deriving DecidableEq

/-- Iterator::min_by_key on start_address: the first element with minimal
start address, as Rust returns the first of equal minima. -/
def minByStart : List MemoryArea → Option MemoryArea
  | [] => none
  | a :: rest =>
    match minByStart rest with
    | none => some a
    | some b => if a.start_address ≤ b.start_address then some a else some b

/-- The filter of choose_next_area: areas whose last frame lies at or beyond
the cursor. -/
def qualAreas (s : AreaFrameAllocator) : List MemoryArea :=
  s.areas.filter (fun a => decide (s.next_free_frame ≤ areaLastFrame a))

/-- AreaFrameAllocator::choose_next_area (area_frame_allocator.rs lines 41-59):
pick the lowest-starting still-qualifying area and raise the cursor to its
start frame if the cursor is below it. -/
def choose_next_area (s : AreaFrameAllocator) : AreaFrameAllocator :=
  match minByStart (qualAreas s) with
  | none => { s with current_area := none }
  | some area =>
    { s with
      current_area := some area,
      next_free_frame :=
        if s.next_free_frame < area.start_address / PAGE_SIZE then
          area.start_address / PAGE_SIZE
        else s.next_free_frame }

/-- AreaFrameAllocator::new (area_frame_allocator.rs lines 18-39): the cursor
starts at frame 1 (physical address 0 is skipped), the reserved ranges are
taken at frame granularity, and choose_next_area runs once. -/
def AreaFrameAllocator.new (kernel_start kernel_end multiboot_start
    multiboot_end : Nat) (memory_areas : List MemoryArea) :
    AreaFrameAllocator :=
  choose_next_area
    { next_free_frame := 1,
      current_area := none,
      areas := memory_areas,
      kernel_start := kernel_start / PAGE_SIZE,
      kernel_end := kernel_end / PAGE_SIZE,
      multiboot_start := multiboot_start / PAGE_SIZE,
      multiboot_end := multiboot_end / PAGE_SIZE }

/-- One step of allocate_frame: either a self-recursive retry with an updated
state, or a result. -/
inductive AllocStep where
  | retry (s : AreaFrameAllocator)
  | done (f : Option Nat) (s : AreaFrameAllocator)
deriving DecidableEq

/-- The body of AreaFrameAllocator::allocate_frame (area_frame_allocator.rs
lines 63-98) as a single step: no current area signals exhaustion; a cursor
past the current area switches areas and retries; a cursor inside the kernel
or multiboot range jumps past it and retries; otherwise the cursor frame is
returned and the cursor advances by one. -/
def allocStep (s : AreaFrameAllocator) : AllocStep :=
  match s.current_area with
  | none => AllocStep.done none s
  | some area =>
    if s.next_free_frame > areaLastFrame area then
      AllocStep.retry (choose_next_area s)
    else if s.kernel_start ≤ s.next_free_frame ∧
        s.next_free_frame ≤ s.kernel_end then
      AllocStep.retry { s with next_free_frame := s.kernel_end + 1 }
    else if s.multiboot_start ≤ s.next_free_frame ∧
        s.next_free_frame ≤ s.multiboot_end then
      AllocStep.retry { s with next_free_frame := s.multiboot_end + 1 }
    else
      AllocStep.done (some s.next_free_frame)
        { s with next_free_frame := s.next_free_frame + 1 }

/-- Fuel-indexed unfolding of the self-recursion of allocate_frame; none means
the recursion was not finished within the given depth. -/
def allocateFrameF : Nat → AreaFrameAllocator →
    Option (Option Nat × AreaFrameAllocator)
  | 0, _ => none
  | fuel + 1, s =>
    match allocStep s with
    | AllocStep.done f s1 => some (f, s1)
    | AllocStep.retry s1 => allocateFrameF fuel s1

/-- Number of areas that still qualify at the current cursor. -/
def qualCount (s : AreaFrameAllocator) : Nat := (qualAreas s).length

/-- Indicator: the cursor has not yet passed the kernel range end. -/
def kernelPending (s : AreaFrameAllocator) : Nat :=
  if s.next_free_frame ≤ s.kernel_end then 1 else 0

/-- Indicator: the cursor has not yet passed the multiboot range end. -/
def multibootPending (s : AreaFrameAllocator) : Nat :=
  if s.next_free_frame ≤ s.multiboot_end then 1 else 0

/-- Indicator: a current area is set. -/
def areaFlag (s : AreaFrameAllocator) : Nat :=
  if s.current_area.isSome then 1 else 0

/-- Indicator: the current area is stale, its last frame behind the cursor. -/
def staleFlag (s : AreaFrameAllocator) : Nat :=
  match s.current_area with
  | some a => if areaLastFrame a < s.next_free_frame then 1 else 0
  | none => 0

/-- Termination measure for allocate_frame: strictly decreases on every
self-recursive retry. -/
def afaMeasure (s : AreaFrameAllocator) : Nat :=
  8 * qualCount s + 2 * kernelPending s + 2 * multibootPending s +
    2 * areaFlag s + staleFlag s

/-- AreaFrameAllocator::allocate_frame: run the recursion with fuel one more
than the measure (proved sufficient below), returning the frame (or None on
exhaustion) and the updated allocator. -/
def allocate_frame (s : AreaFrameAllocator) :
    Option Nat × AreaFrameAllocator :=
  (allocateFrameF (afaMeasure s + 1) s).getD (none, s)

/-- A sequence of n allocate_frame calls: the frames returned (in order) and
the final allocator state. -/
def allocRun : AreaFrameAllocator → Nat → List Nat × AreaFrameAllocator
  | s, 0 => ([], s)
  | s, n + 1 =>
    match allocate_frame s with
    | (some f, s1) =>
      let rest := allocRun s1 n
      (f :: rest.1, rest.2)
    | (none, s1) => allocRun s1 n

/-- A writable, non-executable, allocated kernel section used as concrete boot
input for the remap model. -/
def sampleSection : ElfSection :=
  { allocated := true, writable := true, executable := false,
    start_address := 0x100000, end_address := 0x102000 }

/-- Concrete boot input for the remap model: one loaded section, a one-frame
multiboot range, and an old top-level table lying inside the section. -/
def sampleRemapInput : RemapInput :=
  { sections := [sampleSection], multiboot_start := 0x200000,
    multiboot_end := 0x201000, old_p4_addr := 0x101000 }

/-- First usable area of the concrete frame-allocator scenario: one frame at
physical 0x1000. -/
def cexArea1 : MemoryArea := { start_address := 4096, end_address := 8192 }

/-- Second usable area of the concrete frame-allocator scenario: frames 2-3. -/
def cexArea2 : MemoryArea := { start_address := 8192, end_address := 16384 }

/-- Allocator state reached from AreaFrameAllocator.new 4096 8191 0x100000
0x100fff [cexArea1, cexArea2] after the kernel-range jump: the cursor is past
cexArea1 while cexArea1 is still the current area. -/
def cexState : AreaFrameAllocator :=
  { next_free_frame := 2, current_area := some cexArea1,
    areas := [cexArea1, cexArea2], kernel_start := 1, kernel_end := 1,
    multiboot_start := 256, multiboot_end := 256 }

/-- State after the retry taken from cexState: the current area switched to
cexArea2 while the cursor and the qualifying-area set are unchanged. -/
def cexState2 : AreaFrameAllocator :=
  { next_free_frame := 2, current_area := some cexArea2,
    areas := [cexArea1, cexArea2], kernel_start := 1, kernel_end := 1,
    multiboot_start := 256, multiboot_end := 256 }

/-! Lookup and fold lemmas for the leaf-level page-table model. -/

theorem lookupPage_append (t u : PTable) (p : Nat) :
    lookupPage (t ++ u) p =
      match lookupPage t p with
      | some e => some e
      | none => lookupPage u p := by
  induction t with
  | nil => simp [lookupPage]
  | cons e t ih => by_cases h : e.page = p <;> simp [lookupPage, h, ih]

theorem lookupPage_append_some {t : PTable} {p : Nat} {e : MappedEntry}
    (h : lookupPage t p = some e) (u : PTable) :
    lookupPage (t ++ u) p = some e := by
  rw [lookupPage_append, h]

theorem lookupPage_append_none {t : PTable} {p : Nat}
    (h : lookupPage t p = none) (u : PTable) :
    lookupPage (t ++ u) p = lookupPage u p := by
  rw [lookupPage_append, h]

theorem lookupPage_append_none_left {t u : PTable} {p : Nat}
    (h : lookupPage (t ++ u) p = none) : lookupPage t p = none := by
  cases hl : lookupPage t p with
  | none => rfl
  | some e => rw [lookupPage_append_some hl u] at h; exact absurd h (by simp)

theorem lookupPage_filter_ne (t : PTable) (p : Nat) :
    lookupPage (t.filter (fun e => e.page != p)) p = none := by
  induction t with
  | nil => rfl
  | cons e t ih =>
    by_cases h : e.page = p
    · simpa [List.filter_cons, h] using ih
    · simpa [List.filter_cons, h, lookupPage] using ih

theorem map_to_eq {t t' : PTable} {p f : Nat} {fl : PageTableFlags}
    (h : map_to t p f fl = some t') :
    lookupPage t p = none ∧ t' = t ++ [⟨p, f, fl⟩] := by
  unfold map_to at h
  cases hl : lookupPage t p <;> rw [hl] at h <;> simp_all

theorem unmap_lookup {t t' : PTable} {p : Nat} (h : unmap t p = some t') :
    lookupPage t' p = none := by
  unfold unmap at h
  cases hl : lookupPage t p <;> rw [hl] at h
  · exact absurd h (by simp)
  · obtain rfl : t.filter (fun e => e.page != p) = t' := by simpa using h
    exact lookupPage_filter_ne t p

theorem identFold_append {fl : PageTableFlags} :
    ∀ {l : List Nat} {t t' : PTable}, identFold t l fl = some t' →
      t' = t ++ l.map (fun f => ⟨f, f, fl⟩) := by
  intro l
  induction l with
  | nil => intro t t' h; simpa [identFold] using h.symm
  | cons f rest ih =>
    intro t t' h
    unfold identFold at h
    cases hm : identity_map t f fl <;> rw [hm] at h
    · exact absurd h (by simp)
    · case some t1 =>
      obtain ⟨-, rfl⟩ := map_to_eq hm
      simpa using ih h

theorem identFold_preserve {fl : PageTableFlags} {l : List Nat} {t t' : PTable}
    (h : identFold t l fl = some t') {p : Nat} {e : MappedEntry}
    (hp : lookupPage t p = some e) : lookupPage t' p = some e := by
  rw [identFold_append h]
  exact lookupPage_append_some hp _

theorem identFold_lookup_none {fl : PageTableFlags} :
    ∀ {l : List Nat} {t t' : PTable}, identFold t l fl = some t' →
      ∀ f ∈ l, lookupPage t f = none := by
  intro l
  induction l with
  | nil => intro t t' _ f hf; cases hf
  | cons g rest ih =>
    intro t t' h f hf
    unfold identFold at h
    cases hm : identity_map t g fl <;> rw [hm] at h
    · exact absurd h (by simp)
    · case some t1 =>
      obtain ⟨hnone, rfl⟩ := map_to_eq hm
      rcases List.mem_cons.mp hf with rfl | hf'
      · exact hnone
      · exact lookupPage_append_none_left (ih h f hf')

theorem lookupPage_mapList {fl : PageTableFlags} :
    ∀ {l : List Nat} {f : Nat}, f ∈ l →
      lookupPage (l.map (fun g => (⟨g, g, fl⟩ : MappedEntry))) f =
        some ⟨f, f, fl⟩ := by
  intro l
  induction l with
  | nil => intro f hf; cases hf
  | cons g rest ih =>
    intro f hf
    by_cases h : g = f
    · subst h; simp [lookupPage]
    · rcases List.mem_cons.mp hf with rfl | hf'
      · exact absurd rfl h
      · simpa [lookupPage, h] using ih hf'

theorem identFold_lookup {fl : PageTableFlags} {l : List Nat} {t t' : PTable}
    (h : identFold t l fl = some t') {f : Nat} (hf : f ∈ l) :
    lookupPage t' f = some ⟨f, f, fl⟩ := by
  rw [identFold_append h,
    lookupPage_append_none (identFold_lookup_none h f hf)]
  exact lookupPage_mapList hf

theorem identFold_entries {fl : PageTableFlags} {l : List Nat} {t t' : PTable}
    (h : identFold t l fl = some t') {e : MappedEntry} (he : e ∈ t') :
    e ∈ t ∨ e.flags = fl := by
  rw [identFold_append h] at he
  rcases List.mem_append.mp he with h1 | h2
  · exact Or.inl h1
  · obtain ⟨g, -, rfl⟩ := List.mem_map.mp h2
    exact Or.inr rfl

theorem mapSection_entries {t t' : PTable} {s : ElfSection}
    (h : mapSection t s = some t') {e : MappedEntry} (he : e ∈ t') :
    e ∈ t ∨ e.flags = sectionFlags s := by
  unfold mapSection at h
  split at h
  · obtain rfl : t = t' := by simpa using h
    exact Or.inl he
  · split at h
    · exact absurd h (by simp)
    · exact identFold_entries h he

theorem mapSection_preserve {t t' : PTable} {s : ElfSection}
    (h : mapSection t s = some t') {p : Nat} {e : MappedEntry}
    (hp : lookupPage t p = some e) : lookupPage t' p = some e := by
  unfold mapSection at h
  split at h
  · obtain rfl : t = t' := by simpa using h
    exact hp
  · split at h
    · exact absurd h (by simp)
    · exact identFold_preserve h hp

theorem mapSections_entries :
    ∀ {ss : List ElfSection} {t t' : PTable}, mapSections t ss = some t' →
      ∀ e ∈ t', e ∈ t ∨ ∃ s ∈ ss, e.flags = sectionFlags s := by
  intro ss
  induction ss with
  | nil =>
    intro t t' h e he
    obtain rfl : t = t' := by simpa [mapSections] using h
    exact Or.inl he
  | cons s0 rest ih =>
    intro t t' h e he
    unfold mapSections at h
    cases hm : mapSection t s0 <;> rw [hm] at h
    · exact absurd h (by simp)
    · case some t1 =>
      rcases ih h e he with h1 | ⟨s, hs, hfl⟩
      · rcases mapSection_entries hm h1 with h2 | h2
        · exact Or.inl h2
        · exact Or.inr ⟨s0, List.mem_cons_self _ _, h2⟩
      · exact Or.inr ⟨s, List.mem_cons_of_mem _ hs, hfl⟩

theorem mapSections_preserve :
    ∀ {ss : List ElfSection} {t t' : PTable}, mapSections t ss = some t' →
      ∀ {p : Nat} {e : MappedEntry}, lookupPage t p = some e →
        lookupPage t' p = some e := by
  intro ss
  induction ss with
  | nil =>
    intro t t' h p e hp
    obtain rfl : t = t' := by simpa [mapSections] using h
    exact hp
  | cons s0 rest ih =>
    intro t t' h p e hp
    unfold mapSections at h
    cases hm : mapSection t s0 <;> rw [hm] at h
    · exact absurd h (by simp)
    · exact ih h (mapSection_preserve hm hp)

theorem mapSections_lookup :
    ∀ {ss : List ElfSection} {t t' : PTable}, mapSections t ss = some t' →
      ∀ {s : ElfSection}, s ∈ ss → s.allocated = true →
        ∀ f ∈ rangeList (s.start_address / PAGE_SIZE)
          ((s.end_address - 1) / PAGE_SIZE),
          lookupPage t' f = some ⟨f, f, sectionFlags s⟩ := by
  intro ss
  induction ss with
  | nil => intro t t' _ s hs; cases hs
  | cons s0 rest ih =>
    intro t t' h s hs ha f hf
    unfold mapSections at h
    cases hm : mapSection t s0 <;> rw [hm] at h
    · exact absurd h (by simp)
    · case some t1 =>
      rcases List.mem_cons.mp hs with rfl | hs'
      · refine mapSections_preserve h ?_
        unfold mapSection at hm
        rw [if_neg (by simp [ha])] at hm
        split at hm
        · exact absurd hm (by simp)
        · exact identFold_lookup hm hf
      · exact ih h hs' ha f hf

theorem buildTable_eq {inp : RemapInput} {t : PTable}
    (h : buildTable inp = some t) :
    ∃ t1 t2, mapSections [] inp.sections = some t1 ∧
      identity_map t1 VGA_FRAME writablePresent = some t2 ∧
      identFold t2 (mbFrames inp) presentOnly = some t := by
  unfold buildTable at h
  rcases Option.bind_eq_some.mp h with ⟨t1, h1, h⟩
  rcases Option.bind_eq_some.mp h with ⟨t2, h2, h3⟩
  exact ⟨t1, t2, h1, h2, h3⟩

theorem buildTable_section_lookup {inp : RemapInput} {t : PTable}
    (h : buildTable inp = some t) {s : ElfSection} (hs : s ∈ inp.sections)
    (ha : s.allocated = true) :
    ∀ f ∈ rangeList (s.start_address / PAGE_SIZE)
      ((s.end_address - 1) / PAGE_SIZE),
      lookupPage t f = some ⟨f, f, sectionFlags s⟩ := by
  intro f hf
  obtain ⟨t1, t2, h1, h2, h3⟩ := buildTable_eq h
  have hl1 := mapSections_lookup h1 hs ha f hf
  have hl2 : lookupPage t2 f = some ⟨f, f, sectionFlags s⟩ := by
    obtain ⟨-, rfl⟩ := map_to_eq h2
    exact lookupPage_append_some hl1 _
  exact identFold_preserve h3 hl2

theorem buildTable_mb_lookup {inp : RemapInput} {t : PTable}
    (h : buildTable inp = some t) :
    ∀ f ∈ mbFrames inp, lookupPage t f = some ⟨f, f, presentOnly⟩ := by
  intro f hf
  obtain ⟨t1, t2, h1, h2, h3⟩ := buildTable_eq h
  exact identFold_lookup h3 hf

theorem buildTable_entries {inp : RemapInput} {t : PTable}
    (h : buildTable inp = some t) {e : MappedEntry} (he : e ∈ t) :
    (∃ s ∈ inp.sections, e.flags = sectionFlags s) ∨
      e = ⟨VGA_FRAME, VGA_FRAME, writablePresent⟩ ∨ e.flags = presentOnly := by
  obtain ⟨t1, t2, h1, h2, h3⟩ := buildTable_eq h
  rcases identFold_entries h3 he with h4 | h4
  · obtain ⟨-, rfl⟩ := map_to_eq h2
    rcases List.mem_append.mp h4 with h5 | h5
    · rcases mapSections_entries h1 e h5 with h6 | ⟨s, hs, hfl⟩
      · cases h6
      · exact Or.inl ⟨s, hs, hfl⟩
    · refine Or.inr (Or.inl ?_)
      simpa using h5
  · exact Or.inr (Or.inr h4)

theorem remap_unmaps_old {inp : RemapInput} {t : PTable}
    (h : remap_kernel inp = some t) :
    lookupPage t (inp.old_p4_addr / PAGE_SIZE) = none := by
  unfold remap_kernel at h
  rcases Option.bind_eq_some.mp h with ⟨t0, h1, h2⟩
  exact unmap_lookup h2

theorem mapWritablePages_entries :
    ∀ {ps : List Nat} {t t' : PTable} {fr fr' : List Nat},
      mapWritablePages t fr ps = Except.ok (t', fr') →
      ∀ e ∈ t', e ∈ t ∨ e.flags = writablePresent := by
  intro ps
  induction ps with
  | nil =>
    intro t t' fr fr' h e he
    obtain ⟨rfl, rfl⟩ : t = t' ∧ fr = fr' := by
      simpa [mapWritablePages] using h
    exact Or.inl he
  | cons p ps ih =>
    intro t t' fr fr' h e he
    cases fr with
    | nil =>
      simp only [mapWritablePages] at h
      exact absurd h (by simp)
    | cons f fr0 =>
      simp only [mapWritablePages] at h
      cases hm : map_to t p f writablePresent <;> rw [hm] at h
      · exact absurd h (by simp)
      · case some t1 =>
        rcases ih h e he with h1 | h1
        · obtain ⟨-, rfl⟩ := map_to_eq hm
          rcases List.mem_append.mp h1 with h2 | h2
          · exact Or.inl h2
          · obtain rfl : e = ⟨p, f, writablePresent⟩ := by simpa using h2
            exact Or.inr rfl
        · exact Or.inr h1

theorem mapWritablePages_nil_pages (t : PTable) (fr : List Nat) :
    mapWritablePages t fr [] = Except.ok (t, fr) := by
  simp only [mapWritablePages]

theorem mapWritablePages_nil_frames (t : PTable) (p : Nat) (ps : List Nat) :
    mapWritablePages t [] (p :: ps) = Except.error t := by
  simp only [mapWritablePages]

theorem mapWritablePages_cons_ok {t : PTable} {p : Nat} (f : Nat)
    (fr ps : List Nat) (h : lookupPage t p = none) :
    mapWritablePages t (f :: fr) (p :: ps) =
      mapWritablePages (t ++ [⟨p, f, writablePresent⟩]) fr ps := by
  simp only [mapWritablePages]
  rw [show map_to t p f writablePresent =
    some (t ++ [⟨p, f, writablePresent⟩]) from by unfold map_to; rw [h]]

theorem mapWritablePages_cons_conflict {t : PTable} {p : Nat}
    {e : MappedEntry} (f : Nat) (fr ps : List Nat)
    (h : lookupPage t p = some e) :
    mapWritablePages t (f :: fr) (p :: ps) = Except.error t := by
  simp only [mapWritablePages]
  rw [show map_to t p f writablePresent = none from by unfold map_to; rw [h]]

theorem stackMatch_none {alloc : StackAllocator} {table : PTable}
    {frames : List Nat} {g st en : Option Nat} {r3 : PageRangeInclusive}
    {a' : StackAllocator} {t' : PTable} {fr' : List Nat}
    (h : stackMatch alloc table frames g st en r3 =
      StackResult.ok none a' t' fr') :
    a' = alloc ∧ t' = table ∧ fr' = frames := by
  cases g <;> cases st <;> cases en
  case some.some.some _ s e =>
    have h2 : (match mapWritablePages table frames (rangeList s e) with
        | Except.error tp => StackResult.panicked ⟨r3⟩ tp
        | Except.ok tf =>
          if s * PAGE_SIZE < e * PAGE_SIZE + PAGE_SIZE then
            StackResult.ok (some ⟨e * PAGE_SIZE + PAGE_SIZE, s * PAGE_SIZE⟩)
              ⟨r3⟩ tf.1 tf.2
          else StackResult.panicked ⟨r3⟩ tf.1) =
        StackResult.ok none a' t' fr' := h
    cases hmw : mapWritablePages table frames (rangeList s e) <;>
      rw [hmw] at h2
    · cases h2
    · case ok tf =>
      have h3 : (if s * PAGE_SIZE < e * PAGE_SIZE + PAGE_SIZE then
          StackResult.ok (some ⟨e * PAGE_SIZE + PAGE_SIZE, s * PAGE_SIZE⟩)
            ⟨r3⟩ tf.1 tf.2
        else StackResult.panicked ⟨r3⟩ tf.1) =
          StackResult.ok none a' t' fr' := h2
      by_cases hass : s * PAGE_SIZE < e * PAGE_SIZE + PAGE_SIZE
      · rw [if_pos hass] at h3
        cases h3
      · rw [if_neg hass] at h3
        cases h3
  all_goals (cases h; exact ⟨rfl, rfl, rfl⟩)

theorem choose_next_area_fields (s : AreaFrameAllocator) :
    (choose_next_area s).areas = s.areas ∧
    (choose_next_area s).kernel_start = s.kernel_start ∧
    (choose_next_area s).kernel_end = s.kernel_end ∧
    (choose_next_area s).multiboot_start = s.multiboot_start ∧
    (choose_next_area s).multiboot_end = s.multiboot_end := by
  unfold choose_next_area
  cases minByStart (qualAreas s) <;> simp

theorem choose_next_area_cursor (s : AreaFrameAllocator) :
    s.next_free_frame ≤ (choose_next_area s).next_free_frame := by
  unfold choose_next_area
  cases minByStart (qualAreas s) with
  | none => simp
  | some a =>
    simp only
    split <;> omega

theorem allocStep_retry_fields {s s' : AreaFrameAllocator}
    (h : allocStep s = AllocStep.retry s') :
    s'.areas = s.areas ∧ s'.kernel_start = s.kernel_start ∧
    s'.kernel_end = s.kernel_end ∧ s'.multiboot_start = s.multiboot_start ∧
    s'.multiboot_end = s.multiboot_end ∧
    s.next_free_frame ≤ s'.next_free_frame := by
  cases hc : s.current_area with
  | none =>
    simp only [allocStep, hc] at h
    exact absurd h (by simp)
  | some A =>
    simp only [allocStep, hc] at h
    rw [← hc] at h
    by_cases h1 : s.next_free_frame > areaLastFrame A
    · rw [if_pos h1] at h
      obtain rfl : choose_next_area s = s' := by simpa using h
      obtain ⟨e1, e2, e3, e4, e5⟩ := choose_next_area_fields s
      exact ⟨e1, e2, e3, e4, e5, choose_next_area_cursor s⟩
    · rw [if_neg h1] at h
      by_cases h2 : s.kernel_start ≤ s.next_free_frame ∧
          s.next_free_frame ≤ s.kernel_end
      · rw [if_pos h2] at h
        obtain rfl : { s with next_free_frame := s.kernel_end + 1 } = s' := by
          simpa using h
        refine ⟨rfl, rfl, rfl, rfl, rfl, ?_⟩
        show s.next_free_frame ≤ s.kernel_end + 1
        omega
      · rw [if_neg h2] at h
        by_cases h3 : s.multiboot_start ≤ s.next_free_frame ∧
            s.next_free_frame ≤ s.multiboot_end
        · rw [if_pos h3] at h
          obtain rfl : { s with next_free_frame := s.multiboot_end + 1 } = s' := by
            simpa using h
          refine ⟨rfl, rfl, rfl, rfl, rfl, ?_⟩
          show s.next_free_frame ≤ s.multiboot_end + 1
          omega
        · rw [if_neg h3] at h
          exact absurd h (by simp)

theorem allocStep_done_char {s s' : AreaFrameAllocator} {f : Option Nat}
    (h : allocStep s = AllocStep.done f s') :
    (f = none ∧ s' = s ∧ s.current_area = none) ∨
      (f = some s.next_free_frame ∧
        s' = { s with next_free_frame := s.next_free_frame + 1 } ∧
        ¬(s.kernel_start ≤ s.next_free_frame ∧
          s.next_free_frame ≤ s.kernel_end) ∧
        ¬(s.multiboot_start ≤ s.next_free_frame ∧
          s.next_free_frame ≤ s.multiboot_end)) := by
  cases hc : s.current_area with
  | none =>
    simp only [allocStep, hc] at h
    obtain ⟨h4, h5⟩ : none = f ∧ s = s' := by simpa using h
    exact Or.inl ⟨h4.symm, h5.symm, rfl⟩
  | some A =>
    simp only [allocStep, hc] at h
    by_cases h1 : s.next_free_frame > areaLastFrame A
    · rw [if_pos h1] at h
      exact absurd h (by simp)
    · rw [if_neg h1] at h
      by_cases h2 : s.kernel_start ≤ s.next_free_frame ∧
          s.next_free_frame ≤ s.kernel_end
      · rw [if_pos h2] at h
        exact absurd h (by simp)
      · rw [if_neg h2] at h
        by_cases h3 : s.multiboot_start ≤ s.next_free_frame ∧
            s.next_free_frame ≤ s.multiboot_end
        · rw [if_pos h3] at h
          exact absurd h (by simp)
        · rw [if_neg h3] at h
          injection h with hf hs
          subst hf
          subst hs
          exact Or.inr ⟨rfl, rfl, h2, h3⟩

theorem length_filter_mono {α : Type} (l : List α) (p q : α → Bool)
    (hpq : ∀ a, q a = true → p a = true) :
    (l.filter q).length ≤ (l.filter p).length := by
  induction l with
  | nil => simp
  | cons a l ih =>
    rw [List.filter_cons, List.filter_cons]
    by_cases hq : q a = true
    · rw [if_pos hq, if_pos (hpq a hq)]
      simp only [List.length_cons]
      exact Nat.succ_le_succ ih
    · rw [if_neg hq]
      by_cases hp : p a = true
      · rw [if_pos hp]
        simp only [List.length_cons]
        omega
      · rw [if_neg hp]
        exact ih

theorem length_filter_strict {α : Type} (l : List α) (p q : α → Bool)
    (hpq : ∀ a, q a = true → p a = true) (x : α) (hx : x ∈ l)
    (hpx : p x = true) (hqx : q x = false) :
    (l.filter q).length < (l.filter p).length := by
  induction l with
  | nil => cases hx
  | cons a l ih =>
    rw [List.filter_cons, List.filter_cons]
    rcases List.mem_cons.mp hx with rfl | hx'
    · rw [if_neg (by simp [hqx]), if_pos hpx]
      simp only [List.length_cons]
      exact Nat.lt_succ_of_le (length_filter_mono l p q hpq)
    · by_cases hq : q a = true
      · rw [if_pos hq, if_pos (hpq a hq)]
        simp only [List.length_cons]
        exact Nat.succ_lt_succ (ih hx')
      · rw [if_neg hq]
        by_cases hp : p a = true
        · rw [if_pos hp]
          simp only [List.length_cons]
          exact Nat.lt_succ_of_lt (ih hx')
        · rw [if_neg hp]
          exact ih hx'

theorem minByStart_mem : ∀ {l : List MemoryArea} {a : MemoryArea},
    minByStart l = some a → a ∈ l := by
  intro l
  induction l with
  | nil => intro a h; cases h
  | cons b rest ih =>
    intro a h
    cases hm : minByStart rest with
    | none =>
      simp only [minByStart, hm] at h
      obtain rfl : b = a := by simpa using h
      exact List.mem_cons_self _ _
    | some c =>
      simp only [minByStart, hm] at h
      by_cases hbc : b.start_address ≤ c.start_address
      · rw [if_pos hbc] at h
        obtain rfl : b = a := by simpa using h
        exact List.mem_cons_self _ _
      · rw [if_neg hbc] at h
        obtain rfl : c = a := by simpa using h
        exact List.mem_cons_of_mem _ (ih hm)

theorem mem_qualAreas {s : AreaFrameAllocator} {a : MemoryArea}
    (h : a ∈ qualAreas s) :
    a ∈ s.areas ∧ s.next_free_frame ≤ areaLastFrame a := by
  have h1 := List.mem_filter.mp h
  exact ⟨h1.1, by simpa using h1.2⟩

theorem qualCount_antitone {s s' : AreaFrameAllocator}
    (ha : s'.areas = s.areas)
    (hc : s.next_free_frame ≤ s'.next_free_frame) :
    qualCount s' ≤ qualCount s := by
  unfold qualCount qualAreas
  rw [ha]
  refine length_filter_mono _ _ _ (fun a h => ?_)
  simp only [decide_eq_true_eq] at h ⊢
  omega

theorem qualCount_strict {s s' : AreaFrameAllocator}
    (ha : s'.areas = s.areas)
    (_hc : s.next_free_frame ≤ s'.next_free_frame) {A : MemoryArea}
    (hmem : A ∈ s.areas) (h1 : s.next_free_frame ≤ areaLastFrame A)
    (h2 : areaLastFrame A < s'.next_free_frame) :
    qualCount s' < qualCount s := by
  unfold qualCount qualAreas
  rw [ha]
  refine length_filter_strict _ _ _ (fun a h => ?_) A hmem
    (by simpa using h1) (by simp only [decide_eq_false_iff_not]; omega)
  simp only [decide_eq_true_eq] at h ⊢
  omega

theorem kernelPending_antitone {s s' : AreaFrameAllocator}
    (he : s'.kernel_end = s.kernel_end)
    (hc : s.next_free_frame ≤ s'.next_free_frame) :
    kernelPending s' ≤ kernelPending s := by
  unfold kernelPending
  rw [he]
  split <;> split <;> omega

theorem multibootPending_antitone {s s' : AreaFrameAllocator}
    (he : s'.multiboot_end = s.multiboot_end)
    (hc : s.next_free_frame ≤ s'.next_free_frame) :
    multibootPending s' ≤ multibootPending s := by
  unfold multibootPending
  rw [he]
  split <;> split <;> omega

theorem staleFlag_le_one (s : AreaFrameAllocator) : staleFlag s ≤ 1 := by
  unfold staleFlag
  cases s.current_area with
  | none => exact Nat.zero_le _
  | some a =>
    show (if areaLastFrame a < s.next_free_frame then 1 else 0) ≤ 1
    split <;> omega

theorem choose_next_area_char (s : AreaFrameAllocator) :
    (minByStart (qualAreas s) = none ∧
      choose_next_area s = { s with current_area := none }) ∨
    ∃ B, minByStart (qualAreas s) = some B ∧
      choose_next_area s =
        { s with
            current_area := some B,
            next_free_frame :=
              if s.next_free_frame < B.start_address / PAGE_SIZE then
                B.start_address / PAGE_SIZE
              else s.next_free_frame } := by
  unfold choose_next_area
  cases hm : minByStart (qualAreas s) with
  | none => exact Or.inl ⟨rfl, rfl⟩
  | some B => exact Or.inr ⟨B, rfl, rfl⟩

theorem allocStep_retry_measure {s s' : AreaFrameAllocator}
    (h : allocStep s = AllocStep.retry s') :
    afaMeasure s' < afaMeasure s := by
  cases hc : s.current_area with
  | none =>
    simp only [allocStep, hc] at h
    exact absurd h (by simp)
  | some A => ?_
  simp only [allocStep, hc] at h
  rw [← hc] at h
  by_cases h1 : s.next_free_frame > areaLastFrame A
  · rw [if_pos h1] at h
    obtain rfl : choose_next_area s = s' := by simpa using h
    have hstale : staleFlag s = 1 := by
      simp only [staleFlag, hc]
      rw [if_pos h1]
    have harea : areaFlag s = 1 := by
      simp [areaFlag, hc]
    rcases choose_next_area_char s with ⟨hm, heq⟩ | ⟨B, hm, heq⟩
    · rw [heq]
      have e1 : qualCount { s with current_area := (none : Option MemoryArea) } =
          qualCount s := rfl
      have e2 : kernelPending
          { s with current_area := (none : Option MemoryArea) } =
          kernelPending s := rfl
      have e3 : multibootPending
          { s with current_area := (none : Option MemoryArea) } =
          multibootPending s := rfl
      have e4 : areaFlag { s with current_area := (none : Option MemoryArea) } =
          0 := rfl
      have e5 : staleFlag { s with current_area := (none : Option MemoryArea) } =
          0 := rfl
      unfold afaMeasure
      omega
    · rw [heq]
      obtain ⟨hBmem, hBlast⟩ := mem_qualAreas (minByStart_mem hm)
      set c2 : Nat := (if s.next_free_frame < B.start_address / PAGE_SIZE then
        B.start_address / PAGE_SIZE else s.next_free_frame) with hc2
      have hcc : s.next_free_frame ≤ c2 := by
        rw [hc2]
        split <;> omega
      have harea2 :
          areaFlag { s with current_area := some B, next_free_frame := c2 } =
            1 := rfl
      have hk := @kernelPending_antitone s
        { s with current_area := some B, next_free_frame := c2 } rfl hcc
      have hmub := @multibootPending_antitone s
        { s with current_area := some B, next_free_frame := c2 } rfl hcc
      by_cases hst : areaLastFrame B < c2
      · have hq := @qualCount_strict s
          { s with current_area := some B, next_free_frame := c2 }
          rfl hcc B hBmem hBlast hst
        have hσ2 := staleFlag_le_one
          { s with current_area := some B, next_free_frame := c2 }
        unfold afaMeasure
        omega
      · have hσ2 :
            staleFlag { s with current_area := some B, next_free_frame := c2 } =
              0 := by
          show (if areaLastFrame B < c2 then 1 else 0) = 0
          rw [if_neg hst]
        have hq := @qualCount_antitone s
          { s with current_area := some B, next_free_frame := c2 } rfl hcc
        unfold afaMeasure
        omega
  · rw [if_neg h1] at h
    have hstale : staleFlag s = 0 := by
      simp only [staleFlag, hc]
      rw [if_neg h1]
    have harea : areaFlag s = 1 := by
      simp [areaFlag, hc]
    by_cases h2 : s.kernel_start ≤ s.next_free_frame ∧
        s.next_free_frame ≤ s.kernel_end
    · rw [if_pos h2] at h
      obtain rfl : { s with next_free_frame := s.kernel_end + 1 } = s' := by
        simpa using h
      have hq := @qualCount_antitone s
        { s with next_free_frame := s.kernel_end + 1 } rfl
        (by show s.next_free_frame ≤ s.kernel_end + 1; omega)
      have hK : kernelPending s = 1 := by
        unfold kernelPending
        rw [if_pos h2.2]
      have hK' : kernelPending { s with next_free_frame := s.kernel_end + 1 } =
          0 := by
        show (if s.kernel_end + 1 ≤ s.kernel_end then 1 else 0) = 0
        rw [if_neg (by omega)]
      have hM := @multibootPending_antitone s
        { s with next_free_frame := s.kernel_end + 1 } rfl
        (by show s.next_free_frame ≤ s.kernel_end + 1; omega)
      have hA : areaFlag { s with next_free_frame := s.kernel_end + 1 } =
          areaFlag s := rfl
      have hσ' := staleFlag_le_one { s with next_free_frame := s.kernel_end + 1 }
      unfold afaMeasure
      omega
    · rw [if_neg h2] at h
      by_cases h3 : s.multiboot_start ≤ s.next_free_frame ∧
          s.next_free_frame ≤ s.multiboot_end
      · rw [if_pos h3] at h
        obtain rfl : { s with next_free_frame := s.multiboot_end + 1 } = s' := by
          simpa using h
        have hq := @qualCount_antitone s
          { s with next_free_frame := s.multiboot_end + 1 } rfl
          (by show s.next_free_frame ≤ s.multiboot_end + 1; omega)
        have hM : multibootPending s = 1 := by
          unfold multibootPending
          rw [if_pos h3.2]
        have hM' : multibootPending
            { s with next_free_frame := s.multiboot_end + 1 } = 0 := by
          show (if s.multiboot_end + 1 ≤ s.multiboot_end then 1 else 0) = 0
          rw [if_neg (by omega)]
        have hK := @kernelPending_antitone s
          { s with next_free_frame := s.multiboot_end + 1 } rfl
          (by show s.next_free_frame ≤ s.multiboot_end + 1; omega)
        have hA : areaFlag { s with next_free_frame := s.multiboot_end + 1 } =
            areaFlag s := rfl
        have hσ' := staleFlag_le_one
          { s with next_free_frame := s.multiboot_end + 1 }
        unfold afaMeasure
        omega
      · rw [if_neg h3] at h
        exact absurd h (by simp)

theorem allocateFrameF_total :
    ∀ (n : Nat) (s : AreaFrameAllocator), afaMeasure s < n →
      (allocateFrameF n s).isSome = true := by
  intro n
  induction n with
  | zero => intro s h; omega
  | succ n ih =>
    intro s h
    unfold allocateFrameF
    cases hstep : allocStep s with
    | done f s1 => simp
    | retry s1 =>
      have := allocStep_retry_measure hstep
      exact ih s1 (by omega)

theorem allocateFrameF_mono :
    ∀ (n : Nat) (s : AreaFrameAllocator) (r : Option Nat × AreaFrameAllocator),
      allocateFrameF n s = some r → allocateFrameF (n + 1) s = some r := by
  intro n
  induction n with
  | zero => intro s r h; exact absurd h (by simp [allocateFrameF])
  | succ n ih =>
    intro s r h
    unfold allocateFrameF at h ⊢
    cases hstep : allocStep s with
    | retry s1 =>
      rw [hstep] at h
      exact ih s1 r h
    | done f s1 =>
      rw [hstep] at h
      exact h

theorem allocateFrameF_ge {n m : Nat} (hnm : n ≤ m)
    {s : AreaFrameAllocator} {r : Option Nat × AreaFrameAllocator}
    (h : allocateFrameF n s = some r) : allocateFrameF m s = some r := by
  induction m with
  | zero =>
    obtain rfl : n = 0 := by omega
    exact h
  | succ m ih =>
    rcases Nat.lt_or_ge n (m + 1) with h1 | h1
    · exact allocateFrameF_mono m s r (ih (by omega))
    · obtain rfl : n = m + 1 := by omega
      exact h

theorem allocate_frame_eq (s : AreaFrameAllocator) :
    allocateFrameF (afaMeasure s + 1) s = some (allocate_frame s) := by
  have h := allocateFrameF_total (afaMeasure s + 1) s (by omega)
  cases hr : allocateFrameF (afaMeasure s + 1) s with
  | none => rw [hr] at h; cases h
  | some r =>
    unfold allocate_frame
    rw [hr]
    rfl

theorem allocate_frame_done {s s' : AreaFrameAllocator} {f : Option Nat}
    (h : allocStep s = AllocStep.done f s') : allocate_frame s = (f, s') := by
  unfold allocate_frame allocateFrameF
  rw [h]
  rfl

theorem allocate_frame_retry {s s' : AreaFrameAllocator}
    (h : allocStep s = AllocStep.retry s') :
    allocate_frame s = allocate_frame s' := by
  have hdec := allocStep_retry_measure h
  have h1 : allocateFrameF (afaMeasure s + 1) s =
      allocateFrameF (afaMeasure s) s' := by
    have h0 : allocateFrameF (afaMeasure s + 1) s =
        match allocStep s with
        | AllocStep.done f s1 => some (f, s1)
        | AllocStep.retry s1 => allocateFrameF (afaMeasure s) s1 := rfl
    rw [h0, h]
  have h2 : allocateFrameF (afaMeasure s) s' = some (allocate_frame s') :=
    allocateFrameF_ge (by omega) (allocate_frame_eq s')
  unfold allocate_frame
  rw [h1, h2]
  rfl

theorem allocate_frame_spec_aux :
    ∀ (n : Nat) (s : AreaFrameAllocator), afaMeasure s < n →
      s.next_free_frame ≤ (allocate_frame s).2.next_free_frame ∧
      (allocate_frame s).2.areas = s.areas ∧
      (allocate_frame s).2.kernel_start = s.kernel_start ∧
      (allocate_frame s).2.kernel_end = s.kernel_end ∧
      (allocate_frame s).2.multiboot_start = s.multiboot_start ∧
      (allocate_frame s).2.multiboot_end = s.multiboot_end ∧
      ∀ f, (allocate_frame s).1 = some f →
        s.next_free_frame ≤ f ∧ (allocate_frame s).2.next_free_frame = f + 1 ∧
        ¬(s.kernel_start ≤ f ∧ f ≤ s.kernel_end) ∧
        ¬(s.multiboot_start ≤ f ∧ f ≤ s.multiboot_end) := by
  intro n
  induction n with
  | zero => intro s h; omega
  | succ n ih =>
    intro s h
    cases hstep : allocStep s with
    | retry s1 =>
      rw [allocate_frame_retry hstep]
      obtain ⟨ha, hks, hke, hms, hme, hcur⟩ := allocStep_retry_fields hstep
      have hmlt := allocStep_retry_measure hstep
      obtain ⟨c1, c2, c3, c4, c5, c6, c7⟩ := ih s1 (by omega)
      refine ⟨by omega, by rw [c2, ha], by rw [c3, hks], by rw [c4, hke],
        by rw [c5, hms], by rw [c6, hme], ?_⟩
      intro f hf
      obtain ⟨d1, d2, d3, d4⟩ := c7 f hf
      rw [hks, hke] at d3
      rw [hms, hme] at d4
      exact ⟨by omega, d2, d3, d4⟩
    | done f1 s1 =>
      rw [allocate_frame_done hstep]
      rcases allocStep_done_char hstep with ⟨rfl, rfl, -⟩ | ⟨rfl, rfl, hk, hmb⟩
      · refine ⟨le_rfl, rfl, rfl, rfl, rfl, rfl, ?_⟩
        intro f hf
        cases hf
      · refine ⟨?_, rfl, rfl, rfl, rfl, rfl, ?_⟩
        · show s.next_free_frame ≤ s.next_free_frame + 1
          omega
        · intro f hf
          obtain rfl : s.next_free_frame = f := by simpa using hf
          exact ⟨le_rfl, rfl, hk, hmb⟩

theorem allocate_frame_spec (s : AreaFrameAllocator) :
    s.next_free_frame ≤ (allocate_frame s).2.next_free_frame ∧
    (allocate_frame s).2.areas = s.areas ∧
    (allocate_frame s).2.kernel_start = s.kernel_start ∧
    (allocate_frame s).2.kernel_end = s.kernel_end ∧
    (allocate_frame s).2.multiboot_start = s.multiboot_start ∧
    (allocate_frame s).2.multiboot_end = s.multiboot_end ∧
    ∀ f, (allocate_frame s).1 = some f →
      s.next_free_frame ≤ f ∧ (allocate_frame s).2.next_free_frame = f + 1 ∧
      ¬(s.kernel_start ≤ f ∧ f ≤ s.kernel_end) ∧
      ¬(s.multiboot_start ≤ f ∧ f ≤ s.multiboot_end) :=
  allocate_frame_spec_aux (afaMeasure s + 1) s (by omega)

theorem allocRun_zero (s : AreaFrameAllocator) : allocRun s 0 = ([], s) := rfl

theorem allocRun_succ_some {s s1 : AreaFrameAllocator} {g n : Nat}
    (h : allocate_frame s = (some g, s1)) :
    allocRun s (n + 1) = (g :: (allocRun s1 n).1, (allocRun s1 n).2) := by
  simp only [allocRun]
  rw [h]

theorem allocRun_succ_none {s s1 : AreaFrameAllocator} {n : Nat}
    (h : allocate_frame s = (none, s1)) :
    allocRun s (n + 1) = allocRun s1 n := by
  simp only [allocRun]
  rw [h]

theorem allocRun_mem :
    ∀ (n : Nat) (s : AreaFrameAllocator) (f : Nat), f ∈ (allocRun s n).1 →
      s.next_free_frame ≤ f ∧
      ¬(s.kernel_start ≤ f ∧ f ≤ s.kernel_end) ∧
      ¬(s.multiboot_start ≤ f ∧ f ≤ s.multiboot_end) := by
  intro n
  induction n with
  | zero =>
    intro s f hf
    rw [allocRun_zero] at hf
    cases hf
  | succ n ih =>
    intro s f hf
    obtain ⟨c1, c2, c3, c4, c5, c6, c7⟩ := allocate_frame_spec s
    cases hr : allocate_frame s with
    | mk o s1 =>
    simp only [hr] at c1 c2 c3 c4 c5 c6 c7
    cases o with
    | some g =>
      rw [allocRun_succ_some hr] at hf
      obtain ⟨d1, d2, d3, d4⟩ := c7 g rfl
      rcases List.mem_cons.mp hf with rfl | hf'
      · exact ⟨d1, d3, d4⟩
      · obtain ⟨e1, e2, e3⟩ := ih s1 f hf'
        rw [c3, c4] at e2
        rw [c5, c6] at e3
        exact ⟨by omega, e2, e3⟩
    | none =>
      rw [allocRun_succ_none hr] at hf
      obtain ⟨e1, e2, e3⟩ := ih s1 f hf
      rw [c3, c4] at e2
      rw [c5, c6] at e3
      exact ⟨by omega, e2, e3⟩

theorem allocRun_cursor_le :
    ∀ (n : Nat) (s : AreaFrameAllocator) (f : Nat), f ∈ (allocRun s n).1 →
      s.next_free_frame ≤ f :=
  fun n s f hf => (allocRun_mem n s f hf).1

theorem allocRun_pairwise :
    ∀ (n : Nat) (s : AreaFrameAllocator),
      List.Pairwise (· < ·) (allocRun s n).1 := by
  intro n
  induction n with
  | zero =>
    intro s
    rw [allocRun_zero]
    exact List.Pairwise.nil
  | succ n ih =>
    intro s
    cases hr : allocate_frame s with
    | mk o s1 =>
    cases o with
    | some g =>
      rw [allocRun_succ_some hr]
      show List.Pairwise (· < ·) (g :: (allocRun s1 n).1)
      refine List.Pairwise.cons ?_ (ih s1)
      intro f hf
      obtain ⟨c1, c2, c3, c4, c5, c6, c7⟩ := allocate_frame_spec s
      simp only [hr] at c7
      obtain ⟨d1, d2, d3, d4⟩ := c7 g rfl
      have e1 := allocRun_cursor_le n s1 f hf
      have d2' : s1.next_free_frame = g + 1 := d2
      omega
    | none =>
      rw [allocRun_succ_none hr]
      exact ih s1

theorem allocate_frame_no_area {s : AreaFrameAllocator}
    (hc : s.current_area = none) : allocate_frame s = (none, s) := by
  have hstep : allocStep s = AllocStep.done none s := by
    simp [allocStep, hc]
  exact allocate_frame_done hstep

theorem allocRun_fix {s : AreaFrameAllocator}
    (h : allocate_frame s = (none, s)) : ∀ n, allocRun s n = ([], s) := by
  intro n
  induction n with
  | zero => rfl
  | succ n ih =>
    rw [allocRun_succ_none h]
    exact ih

theorem new_fields (ks ke ms me : Nat) (l : List MemoryArea) :
    (AreaFrameAllocator.new ks ke ms me l).kernel_start = ks / PAGE_SIZE ∧
    (AreaFrameAllocator.new ks ke ms me l).kernel_end = ke / PAGE_SIZE ∧
    (AreaFrameAllocator.new ks ke ms me l).multiboot_start = ms / PAGE_SIZE ∧
    (AreaFrameAllocator.new ks ke ms me l).multiboot_end = me / PAGE_SIZE := by
  unfold AreaFrameAllocator.new
  obtain ⟨-, e2, e3, e4, e5⟩ := choose_next_area_fields
    { next_free_frame := 1, current_area := none, areas := l,
      kernel_start := ks / PAGE_SIZE, kernel_end := ke / PAGE_SIZE,
      multiboot_start := ms / PAGE_SIZE, multiboot_end := me / PAGE_SIZE }
  exact ⟨e2, e3, e4, e5⟩

/-! The claim theorems. -/

/-- C1, counterexample: the display-buffer leaf entry installed by remap_kernel
is writable with the no-execute flag clear, so an installed leaf entry can be
writable without no-execute -- the claimed invariant fails on the code. -/
theorem vga_mapping_breaks_w_xor_x :
    lookupPage ((buildTable sampleRemapInput).getD []) VGA_FRAME =
      some ⟨VGA_FRAME, VGA_FRAME, writablePresent⟩ ∧
    writablePresent.writable = true ∧ writablePresent.no_execute = false := by
  decide

/-- C1, amended: entries derived from kernel sections (given that no loaded
section is flagged both writable and executable) and boot-metadata entries are
never writable without no-execute; the only other entry installed by
remap_kernel is the display-buffer entry, and the heap-window and stack-page
mapping loop installs all of its entries writable with no-execute clear
(writable and executable). -/
theorem w_xor_x_only_for_section_and_multiboot_entries :
    (∀ (inp : RemapInput) (t : PTable), buildTable inp = some t →
      (∀ s ∈ inp.sections, ¬(s.writable = true ∧ s.executable = true)) →
      ∀ e ∈ t, (e.flags.writable = true → e.flags.no_execute = true) ∨
        e = ⟨VGA_FRAME, VGA_FRAME, writablePresent⟩) ∧
    (∀ (t : PTable) (fr ps : List Nat) (t' : PTable) (fr' : List Nat),
      mapWritablePages t fr ps = Except.ok (t', fr') →
      ∀ e ∈ t', e ∈ t ∨
        (e.flags.writable = true ∧ e.flags.no_execute = false)) := by
  constructor
  · intro inp t h hsec e he
    rcases buildTable_entries h he with ⟨s, hs, hfl⟩ | hvga | hmb
    · left
      intro hw
      rw [hfl] at hw ⊢
      have hnx := hsec s hs
      simp only [sectionFlags] at hw ⊢
      cases hexe : s.executable
      · rfl
      · exact absurd ⟨hw, hexe⟩ hnx
    · right
      exact hvga
    · left
      intro hw
      rw [hmb] at hw
      exact absurd hw (by simp [presentOnly])
  · intro t fr ps t' fr' h e he
    rcases mapWritablePages_entries h e he with h1 | h1
    · exact Or.inl h1
    · right
      rw [h1]
      exact ⟨rfl, rfl⟩

/-- C1, witness for the amended theorem at the concrete boot input: its
boot-metadata entry satisfies the disjunction. -/
theorem w_xor_x_only_for_section_and_multiboot_entries_witness :
    (((⟨512, 512, presentOnly⟩ : MappedEntry).flags.writable = true →
      (⟨512, 512, presentOnly⟩ : MappedEntry).flags.no_execute = true) ∨
    (⟨512, 512, presentOnly⟩ : MappedEntry) =
      ⟨VGA_FRAME, VGA_FRAME, writablePresent⟩) :=
  w_xor_x_only_for_section_and_multiboot_entries.1 sampleRemapInput
    ((buildTable sampleRemapInput).getD []) (by decide) (by decide)
    ⟨512, 512, presentOnly⟩ (by decide)

/-- C2, counterexample: allocate_stack with a two-page request and only one
available frame panics after the range pointer was advanced and the first
stack page was mapped -- the frame-exhaustion failure path is not atomic. -/
theorem allocate_stack_frame_exhaustion_not_atomic :
    allocate_stack ⟨⟨10, 20⟩⟩ [] [42] 2 =
      StackResult.panicked ⟨⟨13, 20⟩⟩ [⟨11, 42, writablePresent⟩] ∧
    (⟨⟨13, 20⟩⟩ : StackAllocator) ≠ ⟨⟨10, 20⟩⟩ ∧
    ([⟨11, 42, writablePresent⟩] : PTable) ≠ [] := by
  decide

/-- C2, amended: on every failure path on which allocate_stack returns None
(a zero-size request, or a reserved range with fewer than size_in_pages + 1
pages) the call is atomic: no page is mapped, no frame is consumed and the
allocator state is exactly what it was before the call.  (When a frame cannot
be obtained partway through mapping, the call instead panics with the range
pointer already advanced and earlier pages mapped.) -/
theorem allocate_stack_none_return_atomic (a : StackAllocator) (t : PTable)
    (fr : List Nat) (n : Nat) (a' : StackAllocator) (t' : PTable)
    (fr' : List Nat)
    (h : allocate_stack a t fr n = StackResult.ok none a' t' fr') :
    a' = a ∧ t' = t ∧ fr' = fr := by
  unfold allocate_stack at h
  by_cases hn : n = 0
  · rw [if_pos hn] at h
    cases h
    exact ⟨rfl, rfl, rfl⟩
  · rw [if_neg hn] at h
    exact stackMatch_none h

/-- C2, witness: a zero-size request leaves the allocator, table and frame
list untouched. -/
theorem allocate_stack_none_return_atomic_witness :
    (⟨⟨10, 20⟩⟩ : StackAllocator) = ⟨⟨10, 20⟩⟩ ∧ ([] : PTable) = [] ∧
    ([42] : List Nat) = [42] :=
  allocate_stack_none_return_atomic ⟨⟨10, 20⟩⟩ [] [42] 0 ⟨⟨10, 20⟩⟩ [] [42]
    (by decide)

/-- C3, counterexample: the boot-metadata frame of the concrete boot input is
identity-mapped with the present flag alone -- its writable flag is clear, not
set as the claim states. -/
theorem multiboot_mapping_lacks_writable :
    512 ∈ mbFrames sampleRemapInput ∧
    lookupPage ((buildTable sampleRemapInput).getD []) 512 =
      some ⟨512, 512, presentOnly⟩ ∧
    presentOnly.writable = false := by
  decide

/-- C3, amended: during kernel remap every frame of the boot-metadata physical
range is identity-mapped into the new table with the present flag set and the
writable flag clear. -/
theorem multiboot_mapped_present_only (inp : RemapInput) (t : PTable)
    (h : buildTable inp = some t) :
    ∀ f ∈ mbFrames inp, lookupPage t f =
      some ⟨f, f, { present := true, writable := false, no_execute := false }⟩ :=
  buildTable_mb_lookup h

/-- C3, witness for the amended theorem at the concrete boot input. -/
theorem multiboot_mapped_present_only_witness :
    lookupPage ((buildTable sampleRemapInput).getD []) 512 =
      some ⟨512, 512,
        { present := true, writable := false, no_execute := false }⟩ :=
  multiboot_mapped_present_only sampleRemapInput
    ((buildTable sampleRemapInput).getD []) (by decide) 512 (by decide)

/-- C4: for every construction of the frame allocator and every sequence of
allocate_frame calls, no returned frame lies in the kernel-image frame range
and none lies in the boot-metadata frame range. -/
theorem allocated_frames_outside_reserved_ranges (ks ke ms me : Nat)
    (areas : List MemoryArea) (n f : Nat)
    (hf : f ∈ (allocRun (AreaFrameAllocator.new ks ke ms me areas) n).1) :
    ¬(ks / PAGE_SIZE ≤ f ∧ f ≤ ke / PAGE_SIZE) ∧
    ¬(ms / PAGE_SIZE ≤ f ∧ f ≤ me / PAGE_SIZE) := by
  obtain ⟨-, h2, h3⟩ := allocRun_mem n _ f hf
  obtain ⟨e1, e2, e3, e4⟩ := new_fields ks ke ms me areas
  rw [e1, e2] at h2
  rw [e3, e4] at h3
  exact ⟨h2, h3⟩

/-- C4, witness: the first frame returned by a concrete allocator avoids its
kernel and multiboot ranges. -/
theorem allocated_frames_outside_reserved_ranges_witness :
    ¬(0x5000 / PAGE_SIZE ≤ 1 ∧ 1 ≤ 0x5fff / PAGE_SIZE) ∧
    ¬(0x6000 / PAGE_SIZE ≤ 1 ∧ 1 ≤ 0x6fff / PAGE_SIZE) :=
  allocated_frames_outside_reserved_ranges 0x5000 0x5fff 0x6000 0x6fff
    [⟨4096, 12288⟩] 1 1 (by decide)

/-- C5: the cursor is monotonically non-decreasing across every call,
including failing ones, and for any sequence of calls the returned frames are
strictly increasing and pairwise distinct. -/
theorem allocated_frames_increasing_and_cursor_monotone
    (s : AreaFrameAllocator) (n : Nat) :
    s.next_free_frame ≤ (allocate_frame s).2.next_free_frame ∧
    List.Pairwise (· < ·) (allocRun s n).1 ∧
    List.Pairwise (· ≠ ·) (allocRun s n).1 := by
  refine ⟨(allocate_frame_spec s).1, allocRun_pairwise n s, ?_⟩
  exact (allocRun_pairwise n s).imp (fun h => Nat.ne_of_lt h)

/-- C6: whenever remap_kernel completes, the virtual page whose address equals
the old top-level table root frame address is unmapped in the new hierarchy. -/
theorem old_table_alias_unmapped_after_remap (inp : RemapInput) (t : PTable)
    (h : remap_kernel inp = some t) :
    lookupPage t (inp.old_p4_addr / PAGE_SIZE) = none :=
  remap_unmaps_old h

/-- C6, witness: a concrete completing remap leaves the old table page
unmapped. -/
theorem old_table_alias_unmapped_after_remap_witness :
    lookupPage ((remap_kernel sampleRemapInput).getD [])
      (sampleRemapInput.old_p4_addr / PAGE_SIZE) = none :=
  old_table_alias_unmapped_after_remap sampleRemapInput
    ((remap_kernel sampleRemapInput).getD []) (by decide)

/-- C7: every frame of a loaded kernel section mapped during remap carries
exactly the derived flags: present set, writable iff the section is writable,
no-execute iff the section is not executable. -/
theorem section_mapping_flags_exact (inp : RemapInput) (t : PTable)
    (h : buildTable inp = some t) (s : ElfSection) (hs : s ∈ inp.sections)
    (ha : s.allocated = true) :
    ∀ f ∈ rangeList (s.start_address / PAGE_SIZE)
      ((s.end_address - 1) / PAGE_SIZE),
      lookupPage t f = some ⟨f, f,
        { present := true, writable := s.writable, no_execute := !s.executable }⟩ := by
  intro f hf
  have h1 := buildTable_section_lookup h hs ha f hf
  rw [h1]
  simp [sectionFlags, ha]

/-- C7, witness: the first frame of the concrete loaded section carries the
derived flags. -/
theorem section_mapping_flags_exact_witness :
    lookupPage ((buildTable sampleRemapInput).getD []) 256 =
      some ⟨256, 256,
        { present := true, writable := sampleSection.writable,
          no_execute := !sampleSection.executable }⟩ :=
  section_mapping_flags_exact sampleRemapInput
    ((buildTable sampleRemapInput).getD []) (by decide) sampleSection
    (by decide) (by decide) 256 (by decide)

/-- C10, counterexample: from a reachable allocator state, one self-recursive
retry switches the current area without advancing the cursor and without
shrinking the set of areas that can still qualify, so the claimed dichotomy
does not cover every retry. -/
theorem retry_without_cursor_or_qual_change :
    allocStep (AreaFrameAllocator.new 4096 8191 0x100000 0x100fff
      [cexArea1, cexArea2]) = AllocStep.retry cexState ∧
    allocStep cexState = AllocStep.retry cexState2 ∧
    cexState2.next_free_frame = cexState.next_free_frame ∧
    qualAreas cexState2 = qualAreas cexState := by
  decide

/-- C10, amended: allocate_frame terminates on every allocator state.  Every
self-recursive retry strictly decreases the explicit measure afaMeasure
(which combines the qualifying-area count, the pending kernel and multiboot
jumps, and the current-area staleness), so the recursion depth is bounded by
the measure and the call always completes with a frame or with exhaustion. -/
theorem allocate_frame_terminates (s : AreaFrameAllocator) :
    (∀ s', allocStep s = AllocStep.retry s' →
      afaMeasure s' < afaMeasure s) ∧
    allocateFrameF (afaMeasure s + 1) s = some (allocate_frame s) :=
  ⟨fun _ h => allocStep_retry_measure h, allocate_frame_eq s⟩

/-- C10, witness: the measure decreases on the concrete retry. -/
theorem allocate_frame_terminates_witness :
    afaMeasure cexState2 < afaMeasure cexState ∧
    allocateFrameF (afaMeasure cexState + 1) cexState =
      some (allocate_frame cexState) :=
  ⟨(allocate_frame_terminates cexState).1 cexState2 (by decide),
    (allocate_frame_terminates cexState).2⟩

/-- C9, counterexample: for the two-slot area [0, 8192) whose slots (frames 0
and 1) overlap neither the kernel range nor the boot-metadata range, the
first allocate_frame call returns frame 1, not the area first slot (frame 0):
construction skips physical address 0, so the claim fails as stated. -/
theorem first_call_skips_frame_zero :
    (allocate_frame (AreaFrameAllocator.new 0x5000 0x5fff 0x6000 0x6fff
      [⟨0, 8192⟩])).1 = some 1 ∧
    (⟨0, 8192⟩ : MemoryArea).start_address / PAGE_SIZE = 0 ∧
    (1 : Nat) ≠ 0 := by
  decide

/-- C9, amended: for an allocator constructed with a single usable area
covering exactly the two frame slots k and k + 1 with k at least 1 (the
allocator skips physical address 0, so the area must not start at address 0),
where neither slot lies in the kernel-image or the boot-metadata frame range:
allocate_frame returns the first slot on the first call and the second slot on
the second call, and the third and every subsequent call signal exhaustion. -/
theorem two_slot_area_allocation_sequence (ks ke ms me k : Nat)
    (hk : 1 ≤ k)
    (hk1 : ¬(ks / PAGE_SIZE ≤ k ∧ k ≤ ke / PAGE_SIZE))
    (hk2 : ¬(ks / PAGE_SIZE ≤ k + 1 ∧ k + 1 ≤ ke / PAGE_SIZE))
    (hm1 : ¬(ms / PAGE_SIZE ≤ k ∧ k ≤ me / PAGE_SIZE))
    (hm2 : ¬(ms / PAGE_SIZE ≤ k + 1 ∧ k + 1 ≤ me / PAGE_SIZE)) :
    ∀ m, (allocRun (AreaFrameAllocator.new ks ke ms me
      [⟨PAGE_SIZE * k, PAGE_SIZE * k + 2 * PAGE_SIZE⟩]) (2 + m)).1 =
      [k, k + 1] := by
  intro m
  have hlast : areaLastFrame ⟨PAGE_SIZE * k, PAGE_SIZE * k + 2 * PAGE_SIZE⟩ =
      k + 1 := by
    show (4096 * k + 2 * 4096 - 1) / 4096 = k + 1
    omega
  have hstart : (PAGE_SIZE * k) / PAGE_SIZE = k := by
    show 4096 * k / 4096 = k
    omega
  have hqinit : qualAreas
      { next_free_frame := 1, current_area := none,
        areas := [⟨PAGE_SIZE * k, PAGE_SIZE * k + 2 * PAGE_SIZE⟩],
        kernel_start := ks / PAGE_SIZE, kernel_end := ke / PAGE_SIZE,
        multiboot_start := ms / PAGE_SIZE, multiboot_end := me / PAGE_SIZE } =
      [⟨PAGE_SIZE * k, PAGE_SIZE * k + 2 * PAGE_SIZE⟩] := by
    have hone : (1 : Nat) ≤
        areaLastFrame ⟨PAGE_SIZE * k, PAGE_SIZE * k + 2 * PAGE_SIZE⟩ := by
      rw [hlast]
      omega
    simp [qualAreas, hone]
  have hnew : AreaFrameAllocator.new ks ke ms me
      [⟨PAGE_SIZE * k, PAGE_SIZE * k + 2 * PAGE_SIZE⟩] =
      { next_free_frame := k,
        current_area := some ⟨PAGE_SIZE * k, PAGE_SIZE * k + 2 * PAGE_SIZE⟩,
        areas := [⟨PAGE_SIZE * k, PAGE_SIZE * k + 2 * PAGE_SIZE⟩],
        kernel_start := ks / PAGE_SIZE, kernel_end := ke / PAGE_SIZE,
        multiboot_start := ms / PAGE_SIZE, multiboot_end := me / PAGE_SIZE } := by
    unfold AreaFrameAllocator.new
    rcases choose_next_area_char
        { next_free_frame := 1, current_area := none,
          areas := [⟨PAGE_SIZE * k, PAGE_SIZE * k + 2 * PAGE_SIZE⟩],
          kernel_start := ks / PAGE_SIZE, kernel_end := ke / PAGE_SIZE,
          multiboot_start := ms / PAGE_SIZE, multiboot_end := me / PAGE_SIZE }
      with ⟨hmB, heq⟩ | ⟨B, hmB, heq⟩
    · rw [hqinit] at hmB
      exact absurd hmB (by simp [minByStart])
    · rw [hqinit] at hmB
      have hB : B = ⟨PAGE_SIZE * k, PAGE_SIZE * k + 2 * PAGE_SIZE⟩ := by
        simpa [minByStart] using hmB.symm
      subst hB
      rw [heq]
      show ({ next_free_frame := if 1 < PAGE_SIZE * k / PAGE_SIZE then
                PAGE_SIZE * k / PAGE_SIZE else 1,
              current_area :=
                some ⟨PAGE_SIZE * k, PAGE_SIZE * k + 2 * PAGE_SIZE⟩,
              areas := [⟨PAGE_SIZE * k, PAGE_SIZE * k + 2 * PAGE_SIZE⟩],
              kernel_start := ks / PAGE_SIZE, kernel_end := ke / PAGE_SIZE,
              multiboot_start := ms / PAGE_SIZE,
              multiboot_end := me / PAGE_SIZE } : AreaFrameAllocator) = _
      rw [hstart, show (if (1 : Nat) < k then k else 1) = k from by
        split <;> omega]
  have hS0 : allocStep
      { next_free_frame := k,
        current_area := some ⟨PAGE_SIZE * k, PAGE_SIZE * k + 2 * PAGE_SIZE⟩,
        areas := [⟨PAGE_SIZE * k, PAGE_SIZE * k + 2 * PAGE_SIZE⟩],
        kernel_start := ks / PAGE_SIZE, kernel_end := ke / PAGE_SIZE,
        multiboot_start := ms / PAGE_SIZE, multiboot_end := me / PAGE_SIZE } =
      AllocStep.done (some k)
      { next_free_frame := k + 1,
        current_area := some ⟨PAGE_SIZE * k, PAGE_SIZE * k + 2 * PAGE_SIZE⟩,
        areas := [⟨PAGE_SIZE * k, PAGE_SIZE * k + 2 * PAGE_SIZE⟩],
        kernel_start := ks / PAGE_SIZE, kernel_end := ke / PAGE_SIZE,
        multiboot_start := ms / PAGE_SIZE, multiboot_end := me / PAGE_SIZE } := by
    simp only [allocStep]
    rw [if_neg (by rw [hlast]; omega), if_neg hk1, if_neg hm1]
  have hS1 : allocStep
      { next_free_frame := k + 1,
        current_area := some ⟨PAGE_SIZE * k, PAGE_SIZE * k + 2 * PAGE_SIZE⟩,
        areas := [⟨PAGE_SIZE * k, PAGE_SIZE * k + 2 * PAGE_SIZE⟩],
        kernel_start := ks / PAGE_SIZE, kernel_end := ke / PAGE_SIZE,
        multiboot_start := ms / PAGE_SIZE, multiboot_end := me / PAGE_SIZE } =
      AllocStep.done (some (k + 1))
      { next_free_frame := k + 1 + 1,
        current_area := some ⟨PAGE_SIZE * k, PAGE_SIZE * k + 2 * PAGE_SIZE⟩,
        areas := [⟨PAGE_SIZE * k, PAGE_SIZE * k + 2 * PAGE_SIZE⟩],
        kernel_start := ks / PAGE_SIZE, kernel_end := ke / PAGE_SIZE,
        multiboot_start := ms / PAGE_SIZE, multiboot_end := me / PAGE_SIZE } := by
    simp only [allocStep]
    rw [if_neg (by rw [hlast]; omega), if_neg hk2, if_neg hm2]
  have hS2 : allocStep
      { next_free_frame := k + 1 + 1,
        current_area := some ⟨PAGE_SIZE * k, PAGE_SIZE * k + 2 * PAGE_SIZE⟩,
        areas := [⟨PAGE_SIZE * k, PAGE_SIZE * k + 2 * PAGE_SIZE⟩],
        kernel_start := ks / PAGE_SIZE, kernel_end := ke / PAGE_SIZE,
        multiboot_start := ms / PAGE_SIZE, multiboot_end := me / PAGE_SIZE } =
      AllocStep.retry
      { next_free_frame := k + 1 + 1,
        current_area := none,
        areas := [⟨PAGE_SIZE * k, PAGE_SIZE * k + 2 * PAGE_SIZE⟩],
        kernel_start := ks / PAGE_SIZE, kernel_end := ke / PAGE_SIZE,
        multiboot_start := ms / PAGE_SIZE, multiboot_end := me / PAGE_SIZE } := by
    simp only [allocStep]
    rw [if_pos (by rw [hlast]; omega)]
    rcases choose_next_area_char
        { next_free_frame := k + 1 + 1,
          current_area := some ⟨PAGE_SIZE * k, PAGE_SIZE * k + 2 * PAGE_SIZE⟩,
          areas := [⟨PAGE_SIZE * k, PAGE_SIZE * k + 2 * PAGE_SIZE⟩],
          kernel_start := ks / PAGE_SIZE, kernel_end := ke / PAGE_SIZE,
          multiboot_start := ms / PAGE_SIZE, multiboot_end := me / PAGE_SIZE }
      with ⟨hmB, heq⟩ | ⟨B, hmB, heq⟩
    · rw [heq]
    · exfalso
      have hq2 : qualAreas
          { next_free_frame := k + 1 + 1,
            current_area := some ⟨PAGE_SIZE * k, PAGE_SIZE * k + 2 * PAGE_SIZE⟩,
            areas := [⟨PAGE_SIZE * k, PAGE_SIZE * k + 2 * PAGE_SIZE⟩],
            kernel_start := ks / PAGE_SIZE, kernel_end := ke / PAGE_SIZE,
            multiboot_start := ms / PAGE_SIZE,
            multiboot_end := me / PAGE_SIZE } = [] := by
        have hno : ¬(k + 1 + 1 ≤
            areaLastFrame ⟨PAGE_SIZE * k, PAGE_SIZE * k + 2 * PAGE_SIZE⟩) := by
          rw [hlast]
          omega
        simp [qualAreas, hno]
      rw [hq2] at hmB
      exact absurd hmB (by simp [minByStart])
  have hfr0 := allocate_frame_done hS0
  have hfr1 := allocate_frame_done hS1
  have hfr3 : allocate_frame
      { next_free_frame := k + 1 + 1,
        current_area := none,
        areas := [⟨PAGE_SIZE * k, PAGE_SIZE * k + 2 * PAGE_SIZE⟩],
        kernel_start := ks / PAGE_SIZE, kernel_end := ke / PAGE_SIZE,
        multiboot_start := ms / PAGE_SIZE, multiboot_end := me / PAGE_SIZE } =
      (none,
      { next_free_frame := k + 1 + 1,
        current_area := none,
        areas := [⟨PAGE_SIZE * k, PAGE_SIZE * k + 2 * PAGE_SIZE⟩],
        kernel_start := ks / PAGE_SIZE, kernel_end := ke / PAGE_SIZE,
        multiboot_start := ms / PAGE_SIZE, multiboot_end := me / PAGE_SIZE }) :=
    allocate_frame_no_area rfl
  have hfr2 : allocate_frame
      { next_free_frame := k + 1 + 1,
        current_area := some ⟨PAGE_SIZE * k, PAGE_SIZE * k + 2 * PAGE_SIZE⟩,
        areas := [⟨PAGE_SIZE * k, PAGE_SIZE * k + 2 * PAGE_SIZE⟩],
        kernel_start := ks / PAGE_SIZE, kernel_end := ke / PAGE_SIZE,
        multiboot_start := ms / PAGE_SIZE, multiboot_end := me / PAGE_SIZE } =
      (none,
      { next_free_frame := k + 1 + 1,
        current_area := none,
        areas := [⟨PAGE_SIZE * k, PAGE_SIZE * k + 2 * PAGE_SIZE⟩],
        kernel_start := ks / PAGE_SIZE, kernel_end := ke / PAGE_SIZE,
        multiboot_start := ms / PAGE_SIZE, multiboot_end := me / PAGE_SIZE }) := by
    rw [allocate_frame_retry hS2]
    exact hfr3
  have hrun2 : ∀ j, (allocRun
      { next_free_frame := k + 1 + 1,
        current_area := some ⟨PAGE_SIZE * k, PAGE_SIZE * k + 2 * PAGE_SIZE⟩,
        areas := [⟨PAGE_SIZE * k, PAGE_SIZE * k + 2 * PAGE_SIZE⟩],
        kernel_start := ks / PAGE_SIZE, kernel_end := ke / PAGE_SIZE,
        multiboot_start := ms / PAGE_SIZE, multiboot_end := me / PAGE_SIZE } j).1 =
      [] := by
    intro j
    cases j with
    | zero => rfl
    | succ j =>
      rw [allocRun_succ_none hfr2, allocRun_fix hfr3 j]
  rw [hnew]
  rw [show 2 + m = m + 1 + 1 from by omega]
  rw [allocRun_succ_some hfr0]
  show k :: (allocRun
      { next_free_frame := k + 1,
        current_area := some ⟨PAGE_SIZE * k, PAGE_SIZE * k + 2 * PAGE_SIZE⟩,
        areas := [⟨PAGE_SIZE * k, PAGE_SIZE * k + 2 * PAGE_SIZE⟩],
        kernel_start := ks / PAGE_SIZE, kernel_end := ke / PAGE_SIZE,
        multiboot_start := ms / PAGE_SIZE, multiboot_end := me / PAGE_SIZE }
      (m + 1)).1 = [k, k + 1]
  rw [allocRun_succ_some hfr1]
  show k :: (k + 1) :: (allocRun
      { next_free_frame := k + 1 + 1,
        current_area := some ⟨PAGE_SIZE * k, PAGE_SIZE * k + 2 * PAGE_SIZE⟩,
        areas := [⟨PAGE_SIZE * k, PAGE_SIZE * k + 2 * PAGE_SIZE⟩],
        kernel_start := ks / PAGE_SIZE, kernel_end := ke / PAGE_SIZE,
        multiboot_start := ms / PAGE_SIZE, multiboot_end := me / PAGE_SIZE }
      m).1 = [k, k + 1]
  rw [hrun2 m]

/-- C9, witness: the amended two-slot sequence at the concrete inputs, run for
three calls. -/
theorem two_slot_area_allocation_sequence_witness :
    (allocRun (AreaFrameAllocator.new 0x5000 0x5fff 0x6000 0x6fff
      [⟨PAGE_SIZE * 1, PAGE_SIZE * 1 + 2 * PAGE_SIZE⟩]) (2 + 1)).1 = [1, 1 + 1] :=
  two_slot_area_allocation_sequence 0x5000 0x5fff 0x6000 0x6fff 1
    (by decide) (by decide) (by decide) (by decide) (by decide) 1

/-- C8: a successful allocate_stack(1) followed by a successful
allocate_stack(2) on the same StackAllocator yields two Stacks whose mapped
page sets are disjoint (the first maps exactly page start+1, the second
exactly pages start+3 and start+4), the second stack bottom lies strictly
above the first stack top with exactly one full page of address space
between them, and (provided that guard page was not already mapped before the
calls) the page between the two stacks is unmapped in the final table. -/
theorem stack_pair_disjoint_with_guard (r : PageRangeInclusive) (t0 : PTable)
    (fr0 : List Nat) (s1 s2 : Stack) (a1 a2 : StackAllocator)
    (t1 t2 : PTable) (fr1 fr2 : List Nat)
    (h1 : allocate_stack ⟨r⟩ t0 fr0 1 = StackResult.ok (some s1) a1 t1 fr1)
    (h2 : allocate_stack a1 t1 fr1 2 = StackResult.ok (some s2) a2 t2 fr2)
    (hg : lookupPage t0 (r.start + 2) = none) :
    s1.bottom = (r.start + 1) * PAGE_SIZE ∧
    s1.top = (r.start + 1) * PAGE_SIZE + PAGE_SIZE ∧
    s2.bottom = (r.start + 3) * PAGE_SIZE ∧
    s2.top = (r.start + 4) * PAGE_SIZE + PAGE_SIZE ∧
    s1.top < s2.bottom ∧ PAGE_SIZE ≤ s2.bottom - s1.top ∧
    (∃ e1 e3 e4 : MappedEntry,
      t1 = t0 ++ [e1] ∧ t2 = t1 ++ [e3, e4] ∧
      e1.page = r.start + 1 ∧ e3.page = r.start + 3 ∧
      e4.page = r.start + 4) ∧
    lookupPage t2 (r.start + 2) = none := by
  have h1' : stackMatch ⟨r⟩ t0 fr0 (rangeNext r).1
      (rangeNext (rangeNext r).2).1 (rangeNext (rangeNext r).2).1
      (rangeNext (rangeNext r).2).2 =
      StackResult.ok (some s1) a1 t1 fr1 := h1
  by_cases hA : r.start ≤ r.last
  case neg =>
    have hgN : rangeNext r = (none, r) := by simp [rangeNext, hA]
    simp only [hgN] at h1'
    cases (show StackResult.ok none (⟨r⟩ : StackAllocator) t0 fr0 =
      StackResult.ok (some s1) a1 t1 fr1 from h1')
  case pos =>
  have hgS : rangeNext r = (some r.start, ⟨r.start + 1, r.last⟩) := by
    simp [rangeNext, hA]
  simp only [hgS] at h1'
  by_cases hB : r.start + 1 ≤ r.last
  case neg =>
    have hstN : rangeNext (⟨r.start + 1, r.last⟩ : PageRangeInclusive) =
        (none, ⟨r.start + 1, r.last⟩) := by simp [rangeNext, hB]
    simp only [hstN] at h1'
    cases (show StackResult.ok none (⟨r⟩ : StackAllocator) t0 fr0 =
      StackResult.ok (some s1) a1 t1 fr1 from h1')
  case pos =>
  have hstS : rangeNext (⟨r.start + 1, r.last⟩ : PageRangeInclusive) =
      (some (r.start + 1), ⟨r.start + 1 + 1, r.last⟩) := by
    simp [rangeNext, hB]
  simp only [hstS] at h1'
  have hrl1 : rangeList (r.start + 1) (r.start + 1) = [r.start + 1] := by
    unfold rangeList
    rw [show r.start + 1 + 1 - (r.start + 1) = 1 from by omega]
    rfl
  have h1m : (match mapWritablePages t0 fr0 [r.start + 1] with
      | Except.error tp =>
        StackResult.panicked ⟨⟨r.start + 1 + 1, r.last⟩⟩ tp
      | Except.ok tf =>
        if (r.start + 1) * PAGE_SIZE <
            (r.start + 1) * PAGE_SIZE + PAGE_SIZE then
          StackResult.ok (some ⟨(r.start + 1) * PAGE_SIZE + PAGE_SIZE,
            (r.start + 1) * PAGE_SIZE⟩) ⟨⟨r.start + 1 + 1, r.last⟩⟩
            tf.1 tf.2
        else StackResult.panicked ⟨⟨r.start + 1 + 1, r.last⟩⟩ tf.1) =
      StackResult.ok (some s1) a1 t1 fr1 := by
    rw [← hrl1]
    exact h1'
  cases fr0 with
  | nil =>
    rw [mapWritablePages_nil_frames] at h1m
    cases (show StackResult.panicked
      (⟨⟨r.start + 1 + 1, r.last⟩⟩ : StackAllocator) t0 =
      StackResult.ok (some s1) a1 t1 fr1 from h1m)
  | cons f0 frt =>
  cases hlk1 : lookupPage t0 (r.start + 1) with
  | some e0 =>
    rw [mapWritablePages_cons_conflict f0 frt [] hlk1] at h1m
    cases (show StackResult.panicked
      (⟨⟨r.start + 1 + 1, r.last⟩⟩ : StackAllocator) t0 =
      StackResult.ok (some s1) a1 t1 fr1 from h1m)
  | none =>
  rw [mapWritablePages_cons_ok f0 frt [] hlk1,
    mapWritablePages_nil_pages] at h1m
  have h1if : (if (r.start + 1) * PAGE_SIZE <
      (r.start + 1) * PAGE_SIZE + PAGE_SIZE then
      StackResult.ok (some ⟨(r.start + 1) * PAGE_SIZE + PAGE_SIZE,
        (r.start + 1) * PAGE_SIZE⟩) ⟨⟨r.start + 1 + 1, r.last⟩⟩
        (t0 ++ [⟨r.start + 1, f0, writablePresent⟩]) frt
    else StackResult.panicked ⟨⟨r.start + 1 + 1, r.last⟩⟩
      (t0 ++ [⟨r.start + 1, f0, writablePresent⟩])) =
      StackResult.ok (some s1) a1 t1 fr1 := h1m
  rw [if_pos (show (r.start + 1) * PAGE_SIZE <
    (r.start + 1) * PAGE_SIZE + PAGE_SIZE from by
      show (r.start + 1) * 4096 < (r.start + 1) * 4096 + 4096
      omega)] at h1if
  injection h1if with j0 j1 j2 j3
  obtain rfl : s1 = ⟨(r.start + 1) * PAGE_SIZE + PAGE_SIZE,
      (r.start + 1) * PAGE_SIZE⟩ := (Option.some.inj j0).symm
  obtain rfl : a1 = ⟨⟨r.start + 1 + 1, r.last⟩⟩ := j1.symm
  obtain rfl : t1 = t0 ++ [⟨r.start + 1, f0, writablePresent⟩] := j2.symm
  obtain rfl : fr1 = frt := j3.symm
  have h2' : stackMatch ⟨⟨r.start + 1 + 1, r.last⟩⟩
      (t0 ++ [⟨r.start + 1, f0, writablePresent⟩]) fr1
      (rangeNext ⟨r.start + 1 + 1, r.last⟩).1
      (rangeNext (rangeNext (⟨r.start + 1 + 1, r.last⟩ :
        PageRangeInclusive)).2).1
      (rangeNth (rangeNext (rangeNext (⟨r.start + 1 + 1, r.last⟩ :
        PageRangeInclusive)).2).2 0).1
      (rangeNth (rangeNext (rangeNext (⟨r.start + 1 + 1, r.last⟩ :
        PageRangeInclusive)).2).2 0).2 =
      StackResult.ok (some s2) a2 t2 fr2 := h2
  by_cases hC : r.start + 1 + 1 ≤ r.last
  case neg =>
    have hg2N : rangeNext (⟨r.start + 1 + 1, r.last⟩ : PageRangeInclusive) =
        (none, ⟨r.start + 1 + 1, r.last⟩) := by simp [rangeNext, hC]
    simp only [hg2N] at h2'
    cases (show StackResult.ok none
      (⟨⟨r.start + 1 + 1, r.last⟩⟩ : StackAllocator)
      (t0 ++ [⟨r.start + 1, f0, writablePresent⟩]) fr1 =
      StackResult.ok (some s2) a2 t2 fr2 from h2')
  case pos =>
  have hg2S : rangeNext (⟨r.start + 1 + 1, r.last⟩ : PageRangeInclusive) =
      (some (r.start + 1 + 1), ⟨r.start + 1 + 1 + 1, r.last⟩) := by
    simp [rangeNext, hC]
  simp only [hg2S] at h2'
  by_cases hD : r.start + 1 + 1 + 1 ≤ r.last
  case neg =>
    have hst2N : rangeNext (⟨r.start + 1 + 1 + 1, r.last⟩ :
        PageRangeInclusive) = (none, ⟨r.start + 1 + 1 + 1, r.last⟩) := by
      simp [rangeNext, hD]
    simp only [hst2N] at h2'
    cases (show StackResult.ok none
      (⟨⟨r.start + 1 + 1, r.last⟩⟩ : StackAllocator)
      (t0 ++ [⟨r.start + 1, f0, writablePresent⟩]) fr1 =
      StackResult.ok (some s2) a2 t2 fr2 from h2')
  case pos =>
  have hst2S : rangeNext (⟨r.start + 1 + 1 + 1, r.last⟩ :
      PageRangeInclusive) =
      (some (r.start + 1 + 1 + 1), ⟨r.start + 1 + 1 + 1 + 1, r.last⟩) := by
    simp [rangeNext, hD]
  simp only [hst2S] at h2'
  by_cases hE : r.start + 1 + 1 + 1 + 1 ≤ r.last
  case neg =>
    have hen2N : rangeNth (⟨r.start + 1 + 1 + 1 + 1, r.last⟩ :
        PageRangeInclusive) 0 = (none, ⟨r.start + 1 + 1 + 1 + 1, r.last⟩) := by
      show rangeNext (⟨r.start + 1 + 1 + 1 + 1, r.last⟩ :
        PageRangeInclusive) = _
      simp [rangeNext, hE]
    simp only [hen2N] at h2'
    cases (show StackResult.ok none
      (⟨⟨r.start + 1 + 1, r.last⟩⟩ : StackAllocator)
      (t0 ++ [⟨r.start + 1, f0, writablePresent⟩]) fr1 =
      StackResult.ok (some s2) a2 t2 fr2 from h2')
  case pos =>
  have hen2S : rangeNth (⟨r.start + 1 + 1 + 1 + 1, r.last⟩ :
      PageRangeInclusive) 0 =
      (some (r.start + 1 + 1 + 1 + 1),
        ⟨r.start + 1 + 1 + 1 + 1 + 1, r.last⟩) := by
    show rangeNext (⟨r.start + 1 + 1 + 1 + 1, r.last⟩ :
      PageRangeInclusive) = _
    simp [rangeNext, hE]
  simp only [hen2S] at h2'
  have hrl2 : rangeList (r.start + 1 + 1 + 1) (r.start + 1 + 1 + 1 + 1) =
      [r.start + 1 + 1 + 1, r.start + 1 + 1 + 1 + 1] := by
    unfold rangeList
    rw [show r.start + 1 + 1 + 1 + 1 + 1 - (r.start + 1 + 1 + 1) = 2 from by
      omega]
    rfl
  have h2m : (match mapWritablePages
      (t0 ++ [⟨r.start + 1, f0, writablePresent⟩]) fr1
      [r.start + 1 + 1 + 1, r.start + 1 + 1 + 1 + 1] with
      | Except.error tp =>
        StackResult.panicked ⟨⟨r.start + 1 + 1 + 1 + 1 + 1, r.last⟩⟩ tp
      | Except.ok tf =>
        if (r.start + 1 + 1 + 1) * PAGE_SIZE <
            (r.start + 1 + 1 + 1 + 1) * PAGE_SIZE + PAGE_SIZE then
          StackResult.ok
            (some ⟨(r.start + 1 + 1 + 1 + 1) * PAGE_SIZE + PAGE_SIZE,
              (r.start + 1 + 1 + 1) * PAGE_SIZE⟩)
            ⟨⟨r.start + 1 + 1 + 1 + 1 + 1, r.last⟩⟩ tf.1 tf.2
        else StackResult.panicked
          ⟨⟨r.start + 1 + 1 + 1 + 1 + 1, r.last⟩⟩ tf.1) =
      StackResult.ok (some s2) a2 t2 fr2 := by
    rw [← hrl2]
    exact h2'
  cases fr1 with
  | nil =>
    rw [mapWritablePages_nil_frames] at h2m
    cases (show StackResult.panicked
      (⟨⟨r.start + 1 + 1 + 1 + 1 + 1, r.last⟩⟩ : StackAllocator)
      (t0 ++ [⟨r.start + 1, f0, writablePresent⟩]) =
      StackResult.ok (some s2) a2 t2 fr2 from h2m)
  | cons f1 frt2 =>
  cases hlk2 : lookupPage (t0 ++ [⟨r.start + 1, f0, writablePresent⟩])
      (r.start + 1 + 1 + 1) with
  | some e =>
    rw [mapWritablePages_cons_conflict f1 frt2 _ hlk2] at h2m
    cases (show StackResult.panicked
      (⟨⟨r.start + 1 + 1 + 1 + 1 + 1, r.last⟩⟩ : StackAllocator)
      (t0 ++ [⟨r.start + 1, f0, writablePresent⟩]) =
      StackResult.ok (some s2) a2 t2 fr2 from h2m)
  | none =>
  rw [mapWritablePages_cons_ok f1 frt2 _ hlk2] at h2m
  cases frt2 with
  | nil =>
    rw [mapWritablePages_nil_frames] at h2m
    cases (show StackResult.panicked
      (⟨⟨r.start + 1 + 1 + 1 + 1 + 1, r.last⟩⟩ : StackAllocator)
      ((t0 ++ [⟨r.start + 1, f0, writablePresent⟩]) ++
        [⟨r.start + 1 + 1 + 1, f1, writablePresent⟩]) =
      StackResult.ok (some s2) a2 t2 fr2 from h2m)
  | cons f2 frt3 =>
  cases hlk3 : lookupPage ((t0 ++ [⟨r.start + 1, f0, writablePresent⟩]) ++
      [⟨r.start + 1 + 1 + 1, f1, writablePresent⟩])
      (r.start + 1 + 1 + 1 + 1) with
  | some e =>
    rw [mapWritablePages_cons_conflict f2 frt3 _ hlk3] at h2m
    cases (show StackResult.panicked
      (⟨⟨r.start + 1 + 1 + 1 + 1 + 1, r.last⟩⟩ : StackAllocator)
      ((t0 ++ [⟨r.start + 1, f0, writablePresent⟩]) ++
        [⟨r.start + 1 + 1 + 1, f1, writablePresent⟩]) =
      StackResult.ok (some s2) a2 t2 fr2 from h2m)
  | none =>
  rw [mapWritablePages_cons_ok f2 frt3 _ hlk3,
    mapWritablePages_nil_pages] at h2m
  have h2if : (if (r.start + 1 + 1 + 1) * PAGE_SIZE <
      (r.start + 1 + 1 + 1 + 1) * PAGE_SIZE + PAGE_SIZE then
      StackResult.ok
        (some ⟨(r.start + 1 + 1 + 1 + 1) * PAGE_SIZE + PAGE_SIZE,
          (r.start + 1 + 1 + 1) * PAGE_SIZE⟩)
        ⟨⟨r.start + 1 + 1 + 1 + 1 + 1, r.last⟩⟩
        (((t0 ++ [⟨r.start + 1, f0, writablePresent⟩]) ++
          [⟨r.start + 1 + 1 + 1, f1, writablePresent⟩]) ++
          [⟨r.start + 1 + 1 + 1 + 1, f2, writablePresent⟩]) frt3
    else StackResult.panicked
      ⟨⟨r.start + 1 + 1 + 1 + 1 + 1, r.last⟩⟩
      (((t0 ++ [⟨r.start + 1, f0, writablePresent⟩]) ++
        [⟨r.start + 1 + 1 + 1, f1, writablePresent⟩]) ++
        [⟨r.start + 1 + 1 + 1 + 1, f2, writablePresent⟩])) =
      StackResult.ok (some s2) a2 t2 fr2 := h2m
  rw [if_pos (show (r.start + 1 + 1 + 1) * PAGE_SIZE <
    (r.start + 1 + 1 + 1 + 1) * PAGE_SIZE + PAGE_SIZE from by
      show (r.start + 1 + 1 + 1) * 4096 <
        (r.start + 1 + 1 + 1 + 1) * 4096 + 4096
      omega)] at h2if
  injection h2if with k0 k1 k2 k3
  obtain rfl : s2 = ⟨(r.start + 1 + 1 + 1 + 1) * PAGE_SIZE + PAGE_SIZE,
      (r.start + 1 + 1 + 1) * PAGE_SIZE⟩ := (Option.some.inj k0).symm
  obtain rfl : t2 = ((t0 ++ [⟨r.start + 1, f0, writablePresent⟩]) ++
      [⟨r.start + 1 + 1 + 1, f1, writablePresent⟩]) ++
      [⟨r.start + 1 + 1 + 1 + 1, f2, writablePresent⟩] := k2.symm
  refine ⟨rfl, rfl, ?_, ?_, ?_, ?_, ?_, ?_⟩
  · show (r.start + 1 + 1 + 1) * PAGE_SIZE = (r.start + 3) * PAGE_SIZE
    rw [show r.start + 1 + 1 + 1 = r.start + 3 from by omega]
  · show (r.start + 1 + 1 + 1 + 1) * PAGE_SIZE + PAGE_SIZE =
      (r.start + 4) * PAGE_SIZE + PAGE_SIZE
    rw [show r.start + 1 + 1 + 1 + 1 = r.start + 4 from by omega]
  · show (r.start + 1) * PAGE_SIZE + PAGE_SIZE <
      (r.start + 1 + 1 + 1) * PAGE_SIZE
    show (r.start + 1) * 4096 + 4096 < (r.start + 1 + 1 + 1) * 4096
    omega
  · show PAGE_SIZE ≤ (r.start + 1 + 1 + 1) * PAGE_SIZE -
      ((r.start + 1) * PAGE_SIZE + PAGE_SIZE)
    show 4096 ≤ (r.start + 1 + 1 + 1) * 4096 - ((r.start + 1) * 4096 + 4096)
    omega
  · refine ⟨⟨r.start + 1, f0, writablePresent⟩,
      ⟨r.start + 1 + 1 + 1, f1, writablePresent⟩,
      ⟨r.start + 1 + 1 + 1 + 1, f2, writablePresent⟩,
      rfl, ?_, rfl, ?_, ?_⟩
    · rw [List.append_assoc]
      rfl
    · show r.start + 1 + 1 + 1 = r.start + 3
      omega
    · show r.start + 1 + 1 + 1 + 1 = r.start + 4
      omega
  · have l1 : lookupPage (t0 ++ [⟨r.start + 1, f0, writablePresent⟩])
        (r.start + 2) = none := by
      rw [lookupPage_append_none hg]
      unfold lookupPage
      rw [if_neg (show ¬(r.start + 1 = r.start + 2) from by omega)]
      rfl
    have l2 : lookupPage ((t0 ++ [⟨r.start + 1, f0, writablePresent⟩]) ++
        [⟨r.start + 1 + 1 + 1, f1, writablePresent⟩]) (r.start + 2) =
        none := by
      rw [lookupPage_append_none l1]
      unfold lookupPage
      rw [if_neg (show ¬(r.start + 1 + 1 + 1 = r.start + 2) from by omega)]
      rfl
    rw [lookupPage_append_none l2]
    unfold lookupPage
    rw [if_neg (show ¬(r.start + 1 + 1 + 1 + 1 = r.start + 2) from by omega)]
    rfl

/-- C8, witness: the two calls at a concrete range, table and frame list. -/
theorem stack_pair_disjoint_with_guard_witness :
    (⟨49152, 45056⟩ : Stack).bottom = (10 + 1) * PAGE_SIZE ∧
    (⟨49152, 45056⟩ : Stack).top = (10 + 1) * PAGE_SIZE + PAGE_SIZE ∧
    (⟨61440, 53248⟩ : Stack).bottom = (10 + 3) * PAGE_SIZE ∧
    (⟨61440, 53248⟩ : Stack).top = (10 + 4) * PAGE_SIZE + PAGE_SIZE ∧
    (⟨49152, 45056⟩ : Stack).top < (⟨61440, 53248⟩ : Stack).bottom ∧
    PAGE_SIZE ≤ (⟨61440, 53248⟩ : Stack).bottom -
      (⟨49152, 45056⟩ : Stack).top ∧
    (∃ e1 e3 e4 : MappedEntry,
      ([⟨11, 100, writablePresent⟩] : PTable) = [] ++ [e1] ∧
      ([⟨11, 100, writablePresent⟩, ⟨13, 101, writablePresent⟩,
        ⟨14, 102, writablePresent⟩] : PTable) =
        [⟨11, 100, writablePresent⟩] ++ [e3, e4] ∧
      e1.page = 10 + 1 ∧ e3.page = 10 + 3 ∧ e4.page = 10 + 4) ∧
    lookupPage [⟨11, 100, writablePresent⟩, ⟨13, 101, writablePresent⟩,
      ⟨14, 102, writablePresent⟩] (10 + 2) = none :=
  stack_pair_disjoint_with_guard ⟨10, 20⟩ [] [100, 101, 102]
    ⟨49152, 45056⟩ ⟨61440, 53248⟩ ⟨⟨12, 20⟩⟩ ⟨⟨15, 20⟩⟩
    [⟨11, 100, writablePresent⟩]
    [⟨11, 100, writablePresent⟩, ⟨13, 101, writablePresent⟩,
      ⟨14, 102, writablePresent⟩]
    [101, 102] [] (by decide) (by decide) (by decide)

end OsMemory
